import Mathlib

/-!
# Verification of the PROGNOZA weather aggregation core

A shallow embedding, in Lean 4, of the weather subsystem of the PROGNOZA
repository (`src/weather/`): the canonical forecast schema and the
normalizers (`normalize.py`), the priority merge and nowcast resampling of
the router (`router.py`), the TTL cache (`cache.py`), the cached-fetch
helper (`core.py`), and the OpenWeather provider's authentication-failure
latch (`providers/openweather.py`).

Modelling conventions, used throughout:

* Timestamps are rational numbers of seconds since the Unix epoch, always
  UTC.  The pandas timezone machinery (`tz_localize` / `tz_convert`) is the
  identity in this model since every instant is already a UTC instant.
* A pandas cell holds either a missing value (`none`, standing for
  `None`/`NaN`/`NaT`) or a Python object (`some j` with `j : J`).
* Python exceptions are modelled with the `Except PyErr` monad: a function
  that can raise returns `.error e` exactly where the Python code lets an
  exception escape; `try`/`except` blocks are translated to matches on the
  modelled outcome of the guarded operation.
* A `DataFrame` is a column list plus a list of `(timestamp, row)` pairs in
  index order; a row is a function from column names to cells.  Reading a
  column that is not in the frame's column list yields `none`.
* `sort_index` is modelled as a stable insertion sort on the timestamp.
-/

/-- A Python/JSON value, as handled by the normalizers.  Lists and dicts are
encoded with explicit nil/cons constructors so that equality is decidable by
derivation.  `time t` stands for a scalar that `pd.to_datetime` parses to
the UTC instant `t` (e.g. a well-formed ISO-8601 string); other strings are
the ones `pd.to_datetime`/`float` reject. -/
inductive J where
  | null
  | bool (b : Bool)
  | num (q : ℚ)
  | str (s : String)
  | time (t : ℚ)
  | arrNil
  | arrCons (hd tl : J)
  | objNil
  | objCons (key : String) (val rest : J)
deriving DecidableEq, Repr

/-- Python truthiness of a value (`if value:`). -/
def jTruthy : J → Bool
  | .null => false
  | .bool b => b
  | .num q => q ≠ 0
  | .str s => s ≠ ""
  | .time _ => true
  | .arrNil => false
  | .arrCons _ _ => true
  | .objNil => false
  | .objCons _ _ _ => true

/-- Is the value a Python dict? -/
def jIsObj : J → Bool
  | .objNil => true
  | .objCons _ _ _ => true
  | _ => false

/-- Is the value a Python list?  (The code only ever checks for `list` or
`(list, tuple)`; tuples are not distinguished in the model.) -/
def jIsArr : J → Bool
  | .arrNil => true
  | .arrCons _ _ => true
  | _ => false

/-- The elements of a list value (empty for non-lists). -/
def jElems : J → List J
  | .arrCons hd tl => hd :: jElems tl
  | _ => []

/-- The key/value pairs of a dict value, in insertion order. -/
def jItems : J → List (String × J)
  | .objCons k v rest => (k, v) :: jItems rest
  | _ => []

/-- `k in d` for a dict: key membership. -/
def jHasKey (d : J) (k : String) : Bool :=
  (jItems d).any (fun p => p.1 = k)

/-- `d.get(k)` on a dict: the stored value, or `none` when the key is
absent.  A stored `None` is returned as `some .null`. -/
def jGet (d : J) (k : String) : Option J :=
  ((jItems d).find? (fun p => p.1 = k)).map (·.2)

/-- `d.get(k, default)`: the stored value (possibly `None`) when the key is
present, the default otherwise. -/
def jGetD (d : J) (k : String) (dflt : J) : J :=
  match jGet d k with
  | some v => v
  | none => dflt

/-- `d.get(k)` collapsed to the model's option type: absent keys and stored
`None` both come back as Python `None`, i.e. `none` here. -/
def jOptGet (d : J) (k : String) : Option J :=
  match jGet d k with
  | some v => if v = J.null then none else some v
  | none => none

/-- Modelled Python exceptions.  Only the identity of the exception class
matters to the embedded code (for `except` clauses), not its message. -/
inductive PyErr where
  | attributeError
  | typeError
  | valueError
  | keyError
  | notImplementedError
  | runtimeError
  | unpicklingError
  | sqliteError
  | owAuthError (status : Option Int)
deriving DecidableEq, Repr

/-- Timestamps: rational seconds since the Unix epoch, UTC. -/
abbrev Time := ℚ

/-- A pandas cell: missing (`None`/`NaN`) or a Python object. -/
abbrev Cell := Option J

/-- A pandas DataFrame with a `DatetimeIndex`: ordered column names plus the
rows in index order.  Row functions are only meaningful on `cols`; every
read in the development goes through `Frame.cellAt`, which guards on column
membership. -/
structure Frame where
  cols : List String
  rows : List (Time × (String → Cell))

/-- The index of a frame, in row order (duplicates possible). -/
def Frame.index (f : Frame) : List Time := f.rows.map (·.1)

/-- `frame.empty`. -/
def Frame.isEmpty (f : Frame) : Bool := f.rows.isEmpty

/-- The row at timestamp `t` (first occurrence), if any. -/
def Frame.lookupRow (f : Frame) (t : Time) : Option (String → Cell) :=
  (f.rows.find? (fun p => p.1 = t)).map (·.2)

/-- The cell at `(t, c)`: `none` when the timestamp is absent or the column
is not one of the frame's columns.  This is the model of `frame.reindex`
followed by a column read (pandas raises on duplicate labels; theorems that
depend on this read therefore assume a duplicate-free index). -/
def Frame.cellAt (f : Frame) (t : Time) (c : String) : Cell :=
  match f.lookupRow t with
  | some r => if c ∈ f.cols then r c else none
  | none => none

/-- `REQUIRED_COLUMNS` of `weather/core.py`. -/
def REQUIRED_COLUMNS : List String :=
  ["temp_C", "wind_ms", "wind_deg", "clouds_pct", "humidity", "uvi", "ghi_Wm2"]

/-- Key order on `(timestamp, row)` pairs, for index sorting. -/
def rowLE (a b : Time × (String → Cell)) : Prop := a.1 ≤ b.1

instance : DecidableRel rowLE := fun a b => inferInstanceAs (Decidable (a.1 ≤ b.1))

instance : IsTotal (Time × (String → Cell)) rowLE :=
  ⟨fun a b => le_total a.1 b.1⟩

instance : IsTrans (Time × (String → Cell)) rowLE :=
  ⟨fun _ _ _ hab hbc => le_trans hab hbc⟩

/-- `ensure_utc_index` (`weather/core.py`): localize to UTC (identity in the
model, every `Time` already being a UTC instant) and sort the index
ascending.  `sort_index` is modelled as a stable insertion sort. -/
def ensure_utc_index (f : Frame) : Frame :=
  { cols := f.cols, rows := f.rows.insertionSort rowLE }

/-- `ensure_schema` (`weather/core.py`): sort the index, add every missing
canonical column as all-missing, and project to the canonical columns in
canonical order. -/
def ensure_schema (f : Frame) : Frame :=
  let w := ensure_utc_index f
  { cols := REQUIRED_COLUMNS,
    rows := w.rows.map (fun p => (p.1, fun c => if c ∈ f.cols then p.2 c else none)) }

/-- `align_frames` (`weather/core.py`): the sorted union of the indices of
the non-empty frames.  `Index.union` of duplicate-free indices is their
sorted set union; it is modelled as sort-then-dedup of the concatenation
(`List.dedup` keeps first occurrences, so the result stays sorted). -/
def align_frames (frames : List Frame) : List Time :=
  (((frames.filter (fun f => ¬ f.isEmpty)).flatMap Frame.index).insertionSort
      (fun a b => a ≤ b)).dedup

/-- Merge accumulator: the canonical-column buffer `result` and the `source`
series of `_merge` (`weather/router.py`), as total functions over
timestamps; the final frame restricts them to the union index. -/
structure MergeAcc where
  result : Time → String → Cell
  source : Time → Cell

/-- `aligned.notna().any(axis=1)`: does the frame, reindexed on the union,
have any non-missing value at `t`? -/
def rowAny (f : Frame) (t : Time) : Bool :=
  f.cols.any (fun c => (f.cellAt t c).isSome)

/-- One iteration of the provider loop in `_merge`: for every canonical
column, fill still-missing cells from the incoming (reindexed) frame
(`fill_mask = current.isna() & incoming.notna()`), and fill the still-missing
source cells of rows where the incoming frame has any data
(`source_fill = row_mask & source.isna()`). -/
def mergeStep (acc : MergeAcc) (nf : String × Frame) : MergeAcc :=
  { result := fun t c =>
      match acc.result t c with
      | some v => some v
      | none => nf.2.cellAt t c,
    source := fun t =>
      match acc.source t with
      | some s => some s
      | none => if rowAny nf.2 t then some (J.str nf.1) else none }

/-- The empty merged frame: `empty_frame()` with an empty object `source`
column appended (`_merge` on an empty frame list). -/
def emptyMerged : Frame :=
  { cols := REQUIRED_COLUMNS ++ ["source"], rows := [] }

/-- The provider fold of `_merge`, started from the all-missing `result`
buffer (`pd.DataFrame(index=union, columns=REQUIRED_COLUMNS, dtype=float)`)
and the all-missing `source` series. -/
def mergeAcc (frames : List (String × Frame)) : MergeAcc :=
  frames.foldl mergeStep ⟨fun _ _ => none, fun _ => none⟩

/-- A row of the merged frame: the filled canonical columns plus the
appended `source` column (`result["source"] = source`). -/
def mergeRow (frames : List (String × Frame)) (t : Time) : String → Cell :=
  fun c =>
    if c = "source" then (mergeAcc frames).source t
    else if c ∈ REQUIRED_COLUMNS then (mergeAcc frames).result t c else none

/-- `_merge` (`weather/router.py`): union the indices, fill every canonical
column in provider order, assign row provenance, and append the `source`
column. -/
def merge (frames : List (String × Frame)) : Frame :=
  if frames.isEmpty then emptyMerged
  else
    { cols := REQUIRED_COLUMNS ++ ["source"],
      rows := (align_frames (frames.map (·.2))).map (fun t => (t, mergeRow frames t)) }

/-- A provider as the router sees it during one `get_hourly` request: its
name, its priority, and the outcome of its `get_hourly` call — either the
data of the returned `ForecastFrame`, or a raised exception (`.error`,
caught by the router's `except Exception` clause). -/
structure PEntry where
  name : String
  priority : ℚ
  outcome : Except Unit Frame

/-- `WeatherRouter.__init__`: providers sorted by ascending priority
(`sorted` is stable, modelled by a stable insertion sort). -/
def routerSources (sources : List PEntry) : List PEntry :=
  sources.insertionSort (fun a b => a.priority ≤ b.priority)

/-- `df.loc[(df.index >= start) & (df.index <= end)]`. -/
def clipRows (f : Frame) (s e : Time) : Frame :=
  { cols := f.cols, rows := f.rows.filter (fun p => s ≤ p.1 ∧ p.1 ≤ e) }

/-- One iteration of the provider loop of `WeatherRouter.get_hourly`: skip a
provider whose fetch raised (logging one warning, counted in the second
component) and continue; otherwise take the schema-enforced data, clip it to
`[start, end]`, drop it if empty, enforce the schema again and collect it. -/
def hourlyStep (s e : Time) (acc : List (String × Frame) × Nat) (p : PEntry) :
    List (String × Frame) × Nat :=
  match p.outcome with
  | .error _ => (acc.1, acc.2 + 1)
  | .ok fr =>
    if (clipRows (ensure_schema fr) s e).isEmpty then acc
    else (acc.1 ++ [(p.name, ensure_schema (clipRows (ensure_schema fr) s e))], acc.2)

/-- The provider loop of `WeatherRouter.get_hourly`. -/
def hourlyLoop (sources : List PEntry) (s e : Time) :
    List (String × Frame) × Nat :=
  sources.foldl (hourlyStep s e) ([], 0)

/-- `WeatherRouter.get_hourly` on an already priority-sorted source list:
run the provider loop, merge, and clip the merged frame to the window
unless it is empty.  Returns the frame and the number of warnings logged. -/
def routerGetHourly (sources : List PEntry) (s e : Time) : Frame × Nat :=
  let fw := hourlyLoop sources s e
  let merged := merge fw.1
  (if merged.isEmpty then merged else clipRows merged s e, fw.2)

/-- Does a `PEntry`'s fetch outcome model a raised exception? -/
def PEntry.raised (p : PEntry) : Bool :=
  match p.outcome with
  | .error _ => true
  | .ok _ => false

/-! ## Characterization of the merge fold -/

theorem foldl_mergeStep_result (l : List (String × Frame)) (acc : MergeAcc)
    (t : Time) (c : String) :
    (l.foldl mergeStep acc).result t c =
      match acc.result t c with
      | some v => some v
      | none => l.findSome? (fun nf => nf.2.cellAt t c) := by
  induction l generalizing acc with
  | nil =>
    rw [List.foldl_nil]
    cases acc.result t c <;> rfl
  | cons nf l ih =>
    rw [List.foldl_cons, ih, List.findSome?_cons]
    simp only [mergeStep]
    cases acc.result t c with
    | some v => rfl
    | none => cases nf.2.cellAt t c <;> rfl

theorem foldl_mergeStep_source (l : List (String × Frame)) (acc : MergeAcc)
    (t : Time) :
    (l.foldl mergeStep acc).source t =
      match acc.source t with
      | some v => some v
      | none => (l.find? (fun nf => rowAny nf.2 t)).map (fun nf => J.str nf.1) := by
  induction l generalizing acc with
  | nil =>
    rw [List.foldl_nil]
    cases acc.source t <;> rfl
  | cons nf l ih =>
    rw [List.foldl_cons, ih, List.find?_cons]
    simp only [mergeStep]
    cases acc.source t with
    | some v => cases h : rowAny nf.2 t <;> simp [h]
    | none => cases h : rowAny nf.2 t <;> simp [h]

theorem find?_map_pair_of_mem {α β : Type} [DecidableEq α] {l : List α}
    {g : α → β} {t : α} (hnd : l.Nodup) (ht : t ∈ l) :
    ((l.map (fun u => (u, g u))).find? (fun p => p.1 = t)) = some (t, g t) := by
  induction l with
  | nil => cases ht
  | cons u l ih =>
    rw [List.map_cons, List.find?_cons]
    by_cases hu : u = t
    · subst hu; simp
    · have ht' : t ∈ l := by
        cases List.mem_cons.mp ht with
        | inl h => exact absurd h.symm hu
        | inr h => exact h
      rw [decide_eq_false hu]
      exact ih hnd.of_cons ht'

/-- Looking up a timestamp of a duplicate-free index built with `map`. -/
theorem lookupRow_map_pair {cs : List String} {l : List Time}
    {g : Time → String → Cell} {t : Time} (hnd : l.Nodup) (ht : t ∈ l) :
    (Frame.mk cs (l.map (fun u => (u, g u)))).lookupRow t = some (g t) := by
  rw [Frame.lookupRow]
  show ((l.map (fun u => (u, g u))).find? (fun p => p.1 = t)).map (·.2) = _
  rw [find?_map_pair_of_mem hnd ht]
  rfl

/-- Reading a cell via a known row. -/
theorem cellAt_of_lookup {f : Frame} {t : Time} {r : String → Cell}
    (h : f.lookupRow t = some r) (c : String) :
    f.cellAt t c = if c ∈ f.cols then r c else none := by
  rw [Frame.cellAt, h]

/-- The union index produced by `align_frames` has no duplicates. -/
theorem align_frames_nodup (frames : List Frame) :
    (align_frames frames).Nodup :=
  List.nodup_dedup _

theorem merge_index (frames : List (String × Frame)) (hf : ¬ frames.isEmpty) :
    (merge frames).index = align_frames (frames.map (·.2)) := by
  rw [merge, if_neg hf, Frame.index]
  rw [List.map_map]
  exact List.map_id' _ |>.symm ▸ rfl

theorem merge_lookupRow (frames : List (String × Frame)) (t : Time)
    (ht : t ∈ (merge frames).index) :
    (merge frames).lookupRow t = some (mergeRow frames t) := by
  by_cases hf : frames.isEmpty
  · exfalso
    rw [merge, if_pos hf] at ht
    exact absurd ht (by simp [emptyMerged, Frame.index])
  · have ht' : t ∈ align_frames (frames.map (·.2)) := by
      rw [merge_index frames hf] at ht
      exact ht
    rw [merge, if_neg hf]
    exact lookupRow_map_pair (align_frames_nodup _) ht'

/-- A cell of the merged frame, read at a union timestamp and a canonical
column, is the fold's `result` buffer value there. -/
theorem merge_cellAt (frames : List (String × Frame)) (t : Time) (c : String)
    (hc : c ∈ REQUIRED_COLUMNS) (ht : t ∈ (merge frames).index) :
    (merge frames).cellAt t c = (mergeAcc frames).result t c := by
  have hsrc : c ≠ "source" := by
    intro h; subst h; revert hc; decide
  have hcols : (merge frames).cols = REQUIRED_COLUMNS ++ ["source"] := by
    by_cases hf : frames.isEmpty
    · rw [merge, if_pos hf]; rfl
    · rw [merge, if_neg hf]
  rw [cellAt_of_lookup (merge_lookupRow frames t ht) c, hcols]
  rw [if_pos (List.mem_append_left _ hc), mergeRow]
  rw [if_neg hsrc, if_pos hc]

/-- The `source` cell of the merged frame at a union timestamp is the fold's
`source` series value there. -/
theorem merge_sourceAt (frames : List (String × Frame)) (t : Time)
    (ht : t ∈ (merge frames).index) :
    (merge frames).cellAt t "source" = (mergeAcc frames).source t := by
  have hcols : (merge frames).cols = REQUIRED_COLUMNS ++ ["source"] := by
    by_cases hf : frames.isEmpty
    · rw [merge, if_pos hf]; rfl
    · rw [merge, if_neg hf]
  rw [cellAt_of_lookup (merge_lookupRow frames t ht) "source", hcols]
  rw [if_pos (by simp : "source" ∈ REQUIRED_COLUMNS ++ ["source"]), mergeRow]
  rw [if_pos rfl]

/-- What the `get_hourly` loop collects for one provider, if anything. -/
def hourlyCollect (s e : Time) (p : PEntry) : Option (String × Frame) :=
  match p.outcome with
  | .error _ => none
  | .ok fr =>
    if (clipRows (ensure_schema fr) s e).isEmpty then none
    else some (p.name, ensure_schema (clipRows (ensure_schema fr) s e))

theorem hourlyLoop_fold (sources : List PEntry) (s e : Time)
    (acc : List (String × Frame) × Nat) :
    sources.foldl (hourlyStep s e) acc =
      (acc.1 ++ sources.filterMap (hourlyCollect s e),
       acc.2 + (sources.filter (fun p => p.raised)).length) := by
  induction sources generalizing acc with
  | nil => simp
  | cons p sources ih =>
    rw [List.foldl_cons, ih]
    cases hp : p.outcome with
    | error err =>
      have h1 : hourlyStep s e acc p = (acc.1, acc.2 + 1) := by
        rw [hourlyStep, hp]
      have h2 : hourlyCollect s e p = none := by
        rw [hourlyCollect, hp]
      have h3 : p.raised = true := by rw [PEntry.raised, hp]
      rw [h1, List.filterMap_cons, h2, List.filter_cons, h3]
      simp [Nat.add_comm, Nat.add_assoc, Nat.add_left_comm]
    | ok fr =>
      have h3 : p.raised = false := by rw [PEntry.raised, hp]
      by_cases hemp : (clipRows (ensure_schema fr) s e).isEmpty
      · have h1 : hourlyStep s e acc p = acc := by
          simp [hourlyStep, hp, hemp]
        have h2 : hourlyCollect s e p = none := by
          simp [hourlyCollect, hp, hemp]
        rw [h1, List.filterMap_cons, h2, List.filter_cons, h3]
        simp
      · have h1 : hourlyStep s e acc p =
            (acc.1 ++ [(p.name, ensure_schema (clipRows (ensure_schema fr) s e))], acc.2) := by
          simp [hourlyStep, hp, hemp]
        have h2 : hourlyCollect s e p =
            some (p.name, ensure_schema (clipRows (ensure_schema fr) s e)) := by
          simp [hourlyCollect, hp, hemp]
        rw [h1, List.filterMap_cons, h2, List.filter_cons, h3]
        simp

theorem hourlyLoop_eq (sources : List PEntry) (s e : Time) :
    hourlyLoop sources s e =
      (sources.filterMap (hourlyCollect s e),
       (sources.filter (fun p => p.raised)).length) := by
  rw [hourlyLoop, hourlyLoop_fold]
  simp

/-- Erroring providers contribute nothing to the collected frame list. -/
theorem filterMap_collect_filter_not_raised (sources : List PEntry) (s e : Time) :
    (sources.filter (fun p => ! p.raised)).filterMap (hourlyCollect s e) =
      sources.filterMap (hourlyCollect s e) := by
  induction sources with
  | nil => rfl
  | cons p sources ih =>
    rw [List.filter_cons]
    cases hp : p.outcome with
    | error err =>
      have h3 : p.raised = true := by rw [PEntry.raised, hp]
      have h2 : hourlyCollect s e p = none := by rw [hourlyCollect, hp]
      rw [h3]
      simp only [Bool.not_true, Bool.false_eq_true, if_false, ih,
        List.filterMap_cons, h2]
    | ok fr =>
      have h3 : p.raised = false := by rw [PEntry.raised, hp]
      rw [h3]
      simp only [Bool.not_false, if_true, List.filterMap_cons, ih]

/-! ## The concrete two-provider scenario of the specification -/

/-- P1's series: values `1.0, 2.0, missing` on three hourly timestamps
(every canonical column carries the same pattern, as in the repository's
own merge test). -/
def frameP1 : Frame :=
  { cols := REQUIRED_COLUMNS,
    rows := [((0 : ℚ), fun _ => some (J.num 1)),
             ((3600 : ℚ), fun _ => some (J.num 2)),
             ((7200 : ℚ), fun _ => none)] }

/-- P2's series: values `10.0, 11.0, 12.0` on the same three timestamps. -/
def frameP2 : Frame :=
  { cols := REQUIRED_COLUMNS,
    rows := [((0 : ℚ), fun _ => some (J.num 10)),
             ((3600 : ℚ), fun _ => some (J.num 11)),
             ((7200 : ℚ), fun _ => some (J.num 12))] }

/-- The two providers in ascending priority order. -/
def scenarioFrames : List (String × Frame) := [("P1", frameP1), ("P2", frameP2)]

/-! ## Claim theorems C1–C3 -/

/-- C1: for frames processed in ascending priority order (each with the
canonical column set and a duplicate-free index, as `_merge` requires),
every canonical column `c` and every union timestamp `t`, the merged value
at `(t, c)` is the value of the first provider in order whose series has a
non-missing value there (`List.findSome?`), hence missing when no provider
has one, never overwritten by a later provider, and equal to the
higher-priority value when two providers both have one. -/
theorem merge_fills_by_priority (frames : List (String × Frame)) (t : Time)
    (c : String)
    (_hw : ∀ nf ∈ frames, (nf : String × Frame).2.cols = REQUIRED_COLUMNS ∧
      (nf : String × Frame).2.index.Nodup)
    (hc : c ∈ REQUIRED_COLUMNS) (ht : t ∈ (merge frames).index) :
    (merge frames).cellAt t c = frames.findSome? (fun nf => nf.2.cellAt t c) := by
  rw [merge_cellAt frames t c hc ht, mergeAcc, foldl_mergeStep_result]

/-- Witness for C1: in the concrete two-provider scenario all hypotheses
hold at `t = 3600`, `c = "temp_C"`, and at that cell both providers have a
value, so the merged cell is P1's `2.0`. -/
theorem merge_fills_by_priority_witness :
    (∀ nf ∈ scenarioFrames, (nf : String × Frame).2.cols = REQUIRED_COLUMNS ∧
      (nf : String × Frame).2.index.Nodup) ∧
    "temp_C" ∈ REQUIRED_COLUMNS ∧ (3600 : Time) ∈ (merge scenarioFrames).index ∧
    (merge scenarioFrames).cellAt 3600 "temp_C" =
      scenarioFrames.findSome? (fun nf => nf.2.cellAt 3600 "temp_C") ∧
    (merge scenarioFrames).cellAt 3600 "temp_C" = some (J.num 2) :=
  ⟨by decide, by decide, by decide,
   merge_fills_by_priority scenarioFrames 3600 "temp_C" (by decide) (by decide)
     (by decide),
   by decide⟩

/-- C2: the merged `source` column at a union timestamp names the first
provider in ascending priority order whose (reindexed) series has any
non-missing value there, independently of which cells were filled; and in
the concrete scenario the merged temperature is `[1.0, 2.0, 12.0]` with
source `[P1, P1, P2]`. -/
theorem merge_source_provenance :
    (∀ (frames : List (String × Frame)) (t : Time),
      (∀ nf ∈ frames, (nf : String × Frame).2.cols = REQUIRED_COLUMNS ∧
        (nf : String × Frame).2.index.Nodup) →
      t ∈ (merge frames).index →
      (merge frames).cellAt t "source" =
        (frames.find? (fun nf => rowAny nf.2 t)).map (fun nf => J.str nf.1)) ∧
    (merge scenarioFrames).index = [0, 3600, 7200] ∧
    (merge scenarioFrames).cellAt 0 "temp_C" = some (J.num 1) ∧
    (merge scenarioFrames).cellAt 3600 "temp_C" = some (J.num 2) ∧
    (merge scenarioFrames).cellAt 7200 "temp_C" = some (J.num 12) ∧
    (merge scenarioFrames).cellAt 0 "source" = some (J.str "P1") ∧
    (merge scenarioFrames).cellAt 3600 "source" = some (J.str "P1") ∧
    (merge scenarioFrames).cellAt 7200 "source" = some (J.str "P2") := by
  refine ⟨fun frames t _ ht => ?_, by decide, by decide, by decide, by decide,
    by decide, by decide, by decide⟩
  rw [merge_sourceAt frames t ht, mergeAcc, foldl_mergeStep_source]

/-- Witness for C2: the quantified part applied in the concrete scenario at
`t = 7200`, where P1's row is entirely missing, so provenance goes to P2. -/
theorem merge_source_provenance_witness :
    (∀ nf ∈ scenarioFrames, (nf : String × Frame).2.cols = REQUIRED_COLUMNS ∧
      (nf : String × Frame).2.index.Nodup) ∧
    (7200 : Time) ∈ (merge scenarioFrames).index ∧
    (merge scenarioFrames).cellAt 7200 "source" =
      (scenarioFrames.find? (fun nf => rowAny nf.2 7200)).map
        (fun nf => J.str nf.1) :=
  ⟨by decide, by decide,
   merge_source_provenance.1 scenarioFrames 7200 (by decide) (by decide)⟩

/-- Does every provider's fetch either raise or contribute nothing to the
window (schema-enforced, clipped data empty)?  The total-failure premise. -/
def failsOrEmpty (s e : Time) (p : PEntry) : Bool :=
  match p.outcome with
  | .error _ => true
  | .ok fr => (clipRows (ensure_schema fr) s e).isEmpty

/-- C3: `WeatherRouter.get_hourly` (a) yields the same frame as it would on
the source list with the raising providers removed — a raising provider is
skipped and the loop continues; (b) logs exactly one warning per raising
provider; (c) when every provider raises or contributes an empty clipped
series, it returns the empty merged frame, which still carries the full
canonical column set plus `source` — and, exceptions being modelled as
`Except` outcomes consumed by the loop, no exception escapes. -/
theorem get_hourly_skips_failures :
    (∀ (sources : List PEntry) (s e : Time),
      (routerGetHourly sources s e).1 =
        (routerGetHourly (sources.filter (fun p => ! p.raised)) s e).1) ∧
    (∀ (sources : List PEntry) (s e : Time),
      (routerGetHourly sources s e).2 =
        (sources.filter (fun p => p.raised)).length) ∧
    (∀ (sources : List PEntry) (s e : Time),
      (∀ p ∈ sources, failsOrEmpty s e p) →
      (routerGetHourly sources s e).1 = emptyMerged ∧
      (routerGetHourly sources s e).1.cols = REQUIRED_COLUMNS ++ ["source"] ∧
      (routerGetHourly sources s e).1.isEmpty) := by
  refine ⟨fun sources s e => ?_, fun sources s e => ?_, fun sources s e hall => ?_⟩
  · rw [routerGetHourly, routerGetHourly, hourlyLoop_eq, hourlyLoop_eq]
    rw [filterMap_collect_filter_not_raised]
  · rw [routerGetHourly, hourlyLoop_eq]
  · have hnone : sources.filterMap (hourlyCollect s e) = [] := by
      rw [List.filterMap_eq_nil_iff]
      intro p hp
      have := hall p hp
      rw [failsOrEmpty] at this
      rw [hourlyCollect]
      cases hpo : p.outcome with
      | error err => rfl
      | ok fr =>
        rw [hpo] at this
        have h2 : (clipRows (ensure_schema fr) s e).isEmpty := by simpa using this
        simp [h2]
    have hres : (routerGetHourly sources s e).1 = emptyMerged := by
      rw [routerGetHourly, hourlyLoop_eq, hnone]
      rfl
    exact ⟨hres, by rw [hres]; rfl, by rw [hres]; rfl⟩

/-- Witness for C3's total-failure clause: one provider that raises and one
whose series lies outside the window; the router returns the empty,
schema-conformant merged frame. -/
theorem get_hourly_skips_failures_witness :
    (∀ p ∈ [PEntry.mk "a" 1 (.error ()),
            PEntry.mk "b" 2 (.ok frameP1)], failsOrEmpty 10000 20000 p) ∧
    (routerGetHourly [PEntry.mk "a" 1 (.error ()),
        PEntry.mk "b" 2 (.ok frameP1)] 10000 20000).1 = emptyMerged :=
  ⟨by decide,
   (get_hourly_skips_failures.2.2 [PEntry.mk "a" 1 (.error ()),
      PEntry.mk "b" 2 (.ok frameP1)] 10000 20000 (by decide)).1⟩

/-! ## Normalizers (`weather/normalize.py`) -/

/-- Outcome of `pd.to_datetime(x, utc=True)` on a scalar: a parsed instant,
`NaT` (for `None` input), or a raised `ValueError`/`TypeError` (which every
caller catches).  Modelled: parseable strings are the `J.time` constructor;
bare numbers are nanoseconds since the epoch; all other scalars and
non-scalars count as parse failures. -/
inductive ToDatetimeRes where
  | ok (t : Time)
  | nat
  | err
deriving DecidableEq, Repr

def toDatetime : J → ToDatetimeRes
  | .null => .nat
  | .time t => .ok t
  | .num q => .ok (q / 1000000000)
  | _ => .err

/-- The representable range of `pd.Timestamp`, in whole seconds
(±2⁶³ nanoseconds around the epoch, approximated to the second). -/
def TS_MIN : ℚ := -9223372036

def TS_MAX : ℚ := 9223372036

/-- `pd.Timestamp.fromtimestamp(x, tz="UTC")`: numbers (and bools, which are
ints in Python) in the representable range parse; out-of-range numbers raise
`ValueError`/`OSError`/`OverflowError` (all caught by the callers, folded to
`valueError` here); other values raise an uncaught `TypeError`. -/
def fromtimestampE : J → Except PyErr Time
  | .num q => if TS_MIN ≤ q ∧ q ≤ TS_MAX then .ok q else .error .valueError
  | .bool b => .ok (if b then 1 else 0)
  | _ => .error .typeError

/-- A normalized row before frame assembly: the dict literals appended to
`rows` by every normalizer, with the fixed key set
`timestamp` + the seven canonical fields. -/
structure NRow where
  timestamp : Time
  temp_C : Cell
  wind_ms : Cell
  wind_deg : Cell
  clouds_pct : Cell
  humidity : Cell
  uvi : Cell
  ghi_Wm2 : Cell
deriving DecidableEq

/-- The row dict as a frame row (its keys become the frame's columns). -/
def NRow.toRow (r : NRow) : Time × (String → Cell) :=
  (r.timestamp, fun c =>
    if c = "temp_C" then r.temp_C
    else if c = "wind_ms" then r.wind_ms
    else if c = "wind_deg" then r.wind_deg
    else if c = "clouds_pct" then r.clouds_pct
    else if c = "humidity" then r.humidity
    else if c = "uvi" then r.uvi
    else if c = "ghi_Wm2" then r.ghi_Wm2
    else none)

/-- `_build_frame` (`weather/normalize.py`): an empty canonical frame for no
rows; otherwise set the timestamp index, sort it, and enforce the schema. -/
def build_frame (rows : List NRow) : Frame :=
  if rows.isEmpty then { cols := REQUIRED_COLUMNS, rows := [] }
  else ensure_schema (ensure_utc_index { cols := REQUIRED_COLUMNS, rows := rows.map NRow.toRow })

/-- `empty_frame` (`weather/normalize.py`). -/
def empty_frame : Frame := build_frame []

/-- `_safe_float` (`weather/normalize.py`): `None`/`NaN` become `None`;
`float(value)` returning its numeric value on numbers and bools and raising
a caught `TypeError`/`ValueError` otherwise (numeric strings are not
modelled). -/
def safe_float : Option J → Option ℚ
  | none => none
  | some (.num q) => some q
  | some (.bool b) => some (if b then 1 else 0)
  | some _ => none

/-- `float(v) if v is not None else np.nan`, applied to one cell of the
`temp_C`/`wind_ms` columns by `normalize_openweather_onecall`; a
non-numeric, non-missing object makes `float` raise (uncaught there). -/
def applyFloatCell : Cell → Except PyErr Cell
  | none => .ok none
  | some (.num q) => .ok (some (.num q))
  | some (.bool b) => .ok (some (.num (if b then 1 else 0)))
  | some _ => .error .valueError

/-- `frame[c] = frame[c].apply(float-or-nan)`: rewrite column `c` cell by
cell, propagating the first raised exception. -/
def applyFloatRows (c : String) :
    List (Time × (String → Cell)) → Except PyErr (List (Time × (String → Cell)))
  | [] => .ok []
  | p :: rest =>
    match applyFloatCell (p.2 c) with
    | .error e => .error e
    | .ok nv =>
      match applyFloatRows c rest with
      | .error e => .error e
      | .ok rs => .ok ((p.1, fun c' => if c' = c then nv else p.2 c') :: rs)

def applyFloatCol (f : Frame) (c : String) : Except PyErr Frame :=
  match applyFloatRows c f.rows with
  | .error e => .error e
  | .ok rs => .ok { cols := f.cols, rows := rs }

/-- `_extract` of `normalize_openweather_onecall`: a falsy entry is ignored;
`.get` on a truthy non-dict raises `AttributeError`; a missing/`None` `dt`
is ignored; `fromtimestamp` failures in the caught classes drop the entry,
a `TypeError` propagates; otherwise the raw field values are collected. -/
def owExtract (entry : J) : Except PyErr (Option NRow) :=
  if ¬ jTruthy entry then .ok none
  else if ¬ jIsObj entry then .error .attributeError
  else
    match jOptGet entry "dt" with
    | none => .ok none
    | some dtv =>
      match fromtimestampE dtv with
      | .error .typeError => .error .typeError
      | .error _ => .ok none
      | .ok t =>
        .ok (some
          { timestamp := t,
            temp_C := jOptGet entry "temp",
            wind_ms := jOptGet entry "wind_speed",
            wind_deg := jOptGet entry "wind_deg",
            clouds_pct := jOptGet entry "clouds",
            humidity := jOptGet entry "humidity",
            uvi := jOptGet entry "uvi",
            ghi_Wm2 := none })

/-- The `hourly` loop of `normalize_openweather_onecall`. -/
def owExtractList : List J → Except PyErr (List NRow)
  | [] => .ok []
  | entry :: rest =>
    match owExtract entry with
    | .error e => .error e
    | .ok r =>
      match owExtractList rest with
      | .error e => .error e
      | .ok rs => .ok (r.toList ++ rs)

/-- The tail of `normalize_openweather_onecall`: on a non-empty frame,
apply the float conversion to the `temp_C` and `wind_ms` columns. -/
def owFloatSteps (frame : Frame) : Except PyErr Frame :=
  if frame.isEmpty then .ok frame
  else
    match applyFloatCol frame "temp_C" with
    | .error e => .error e
    | .ok f1 => applyFloatCol f1 "wind_ms"

/-- `normalize_openweather_onecall` (`weather/normalize.py`). -/
def normalize_openweather_onecall (payload : J) : Except PyErr Frame :=
  if ¬ jTruthy payload ∨ ¬ jIsObj payload then .ok (build_frame [])
  else
    match
      (match jOptGet payload "current" with
       | some cur =>
         if jTruthy cur then
           match owExtract cur with
           | .error e => Except.error e
           | .ok r => Except.ok r.toList
         else .ok []
       | none => .ok []) with
    | .error e => .error e
    | .ok curRows =>
      match
        (match jOptGet payload "hourly" with
         | some h =>
           if jTruthy h ∧ jIsArr h then owExtractList (jElems h)
           else .ok []
         | none => .ok []) with
      | .error e => .error e
      | .ok hourlyRows => owFloatSteps (build_frame (curRows ++ hourlyRows))

/-- `obj.get(k)` as an attribute access: raises `AttributeError` when the
receiver is not a dict. -/
def getAttrOpt (j : J) (k : String) : Except PyErr (Option J) :=
  if jIsObj j then .ok (jOptGet j k) else .error .attributeError

/-- Truncation toward zero, as Python `int()` on a float. -/
def qTrunc (q : ℚ) : Int := if 0 ≤ q then ⌊q⌋ else -⌊-q⌋

/-- Python `int(x)`: numbers truncate, bools are ints; strings raise
`ValueError` (numeric strings not modelled), other values `TypeError`;
both are uncaught at the call sites in `normalize_openweather_forecast`. -/
def intE : J → Except PyErr Int
  | .num q => .ok (qTrunc q)
  | .bool b => .ok (if b then 1 else 0)
  | .str _ => .error .valueError
  | _ => .error .typeError

/-- `_append_entry` of `normalize_openweather_forecast`: parse the epoch
seconds (caught failures drop the entry), then read `main`/`wind`/`clouds`
blocks — `.get` on a non-dict block raises `AttributeError` (uncaught). -/
def owAppendEntry (dt : Int) (data : J) : Except PyErr (Option NRow) :=
  if TS_MIN ≤ (dt : ℚ) ∧ (dt : ℚ) ≤ TS_MAX then
    match getAttrOpt (jGetD data "main" data) "temp" with
    | .error e => .error e
    | .ok tv =>
      match getAttrOpt (jGetD data "wind" J.objNil) "speed" with
      | .error e => .error e
      | .ok ws =>
        match getAttrOpt (jGetD data "wind" J.objNil) "deg" with
        | .error e => .error e
        | .ok wd =>
          match getAttrOpt (jGetD data "clouds" J.objNil) "all" with
          | .error e => .error e
          | .ok ca =>
            match getAttrOpt (jGetD data "main" data) "humidity" with
            | .error e => .error e
            | .ok hu =>
              .ok (some
                { timestamp := (dt : ℚ),
                  temp_C := (safe_float tv).map J.num,
                  wind_ms := (safe_float ws).map J.num,
                  wind_deg := (safe_float wd).map J.num,
                  clouds_pct := (safe_float ca).map J.num,
                  humidity := (safe_float hu).map J.num,
                  uvi := none,
                  ghi_Wm2 := none })
  else .ok none

/-- The `forecast["list"]` loop of `normalize_openweather_forecast`. -/
def owForecastList : List J → Except PyErr (List NRow)
  | [] => .ok []
  | item :: rest =>
    if ¬ jIsObj item then owForecastList rest
    else
      match jOptGet item "dt" with
      | none => owForecastList rest
      | some dtv =>
        match intE dtv with
        | .error e => .error e
        | .ok dt =>
          match owAppendEntry dt item with
          | .error e => .error e
          | .ok r =>
            match owForecastList rest with
            | .error e => .error e
            | .ok rs => .ok (r.toList ++ rs)

/-- `frame[~frame.index.duplicated(keep="last")]`: keep each row whose
timestamp does not occur again later. -/
def dedupKeepLast : List (Time × (String → Cell)) → List (Time × (String → Cell))
  | [] => []
  | x :: xs => if xs.any (fun y => y.1 = x.1) then dedupKeepLast xs else x :: dedupKeepLast xs

/-- `x or {}`: the value when truthy, an empty dict otherwise. -/
def orEmptyDict (v : Option J) : J :=
  match v with
  | some x => if jTruthy x then x else J.objNil
  | none => J.objNil

/-- The tail of `normalize_openweather_forecast`: on a non-empty frame,
drop duplicate timestamps keeping the last occurrence (forecast rows
override the `current` row appended before them). -/
def owDedupStep (frame : Frame) : Except PyErr Frame :=
  if frame.isEmpty then .ok frame
  else .ok { cols := frame.cols, rows := dedupKeepLast frame.rows }

/-- `normalize_openweather_forecast` (`weather/normalize.py`). -/
def normalize_openweather_forecast (payload : J) : Except PyErr Frame :=
  if ¬ jTruthy payload ∨ ¬ jIsObj payload then .ok (build_frame [])
  else
    match
      (match orEmptyDict (jOptGet payload "current") with
       | current =>
         if jIsObj current ∧ jHasKey current "dt" then
           match intE (jGetD current "dt" J.null) with
           | .error e => Except.error e
           | .ok dt =>
             match owAppendEntry dt current with
             | .error e => Except.error e
             | .ok r => Except.ok r.toList
         else .ok []) with
    | .error e => .error e
    | .ok curRows =>
      match getAttrOpt (orEmptyDict (jOptGet payload "forecast")) "list" with
      | .error e => .error e
      | .ok flist =>
        match
          (match flist with
           | some l => if jIsArr l then owForecastList (jElems l) else Except.ok []
           | none => Except.ok []) with
        | .error e => .error e
        | .ok fRows => owDedupStep (build_frame (curRows ++ fRows))

/-- `normalize_openweather` (`weather/normalize.py`): mode dispatch. -/
inductive OWMode where
  | onecall
  | forecast
deriving DecidableEq, Repr

def normalize_openweather (payload : J) (mode : OWMode) :
    Except PyErr Frame :=
  match mode with
  | .forecast => normalize_openweather_forecast payload
  | .onecall => normalize_openweather_onecall payload

/-- Outcome of `values[index]` in `_at`: a value, an exception of the caught
classes (`IndexError`/`TypeError`/`ValueError`), or an uncaught `KeyError`
(integer-indexing a dict). -/
inductive IdxRes where
  | val (j : J)
  | caught
  | uncaughtKey
deriving DecidableEq, Repr

def jIndexRes (v : J) (i : Nat) : IdxRes :=
  if jIsArr v then
    match (jElems v)[i]? with
    | some x => .val x
    | none => .caught
  else if jIsObj v then .uncaughtKey
  else
    match v with
    | .str s =>
      match s.data[i]? with
      | some ch => .val (.str (String.mk [ch]))
      | none => .caught
    | _ => .caught

/-- `float(x)` where both failure classes are caught by the surrounding
`try`: numbers and bools convert, everything else counts as a caught
failure (numeric strings not modelled). -/
def floatCaught : J → Option ℚ
  | .num q => some q
  | .bool b => some (if b then 1 else 0)
  | _ => none

/-- The first `try` block of `_at` (`weather/normalize.py`): read
`mapping.get(key)`, index it, convert; a `None` value or a caught exception
falls through to the model-suffix fallback, a `KeyError` propagates. -/
def atTryKey (mapping : J) (key : String) (idx : Nat) : Except PyErr (Option ℚ) :=
  match jOptGet mapping key with
  | none => .ok none
  | some values =>
    if ¬ jTruthy values then .ok none
    else
      match jIndexRes values idx with
      | .uncaughtKey => .error .keyError
      | .caught => .ok none
      | .val .null => .ok none
      | .val j => .ok (floatCaught j)

/-- The model-suffix fallback loop of `_at`, over the sorted key list. -/
def atFallback (mapping : J) (key : String) (idx : Nat) :
    List String → Except PyErr (Option ℚ)
  | [] => .ok none
  | mk :: rest =>
    if ¬ mk.startsWith (key ++ "_") then atFallback mapping key idx rest
    else
      match jOptGet mapping mk with
      | none => atFallback mapping key idx rest
      | some cv =>
        if ¬ jTruthy cv then atFallback mapping key idx rest
        else
          match jIndexRes cv idx with
          | .uncaughtKey => .error .keyError
          | .caught => atFallback mapping key idx rest
          | .val .null => atFallback mapping key idx rest
          | .val j =>
            match floatCaught j with
            | some q => .ok (some q)
            | none => atFallback mapping key idx rest

/-- `sorted(mapping.keys())`. -/
def sortedKeys (mapping : J) : List String :=
  ((jItems mapping).map (·.1)).insertionSort (fun a b => a ≤ b)

/-- `_at` (`weather/normalize.py`). -/
def atE (mapping : J) (key : String) (idx : Nat) : Except PyErr (Option ℚ) :=
  match atTryKey mapping key idx with
  | .error e => .error e
  | .ok (some q) => .ok (some q)
  | .ok none => atFallback mapping key idx (sortedKeys mapping)

/-- Substring containment over the character lists. -/
def containsSub (s pat : String) : Bool :=
  s.data.tails.any (fun t => pat.data.isPrefixOf t)

/-- `kmh_to_ms` (`weather/normalize.py`). -/
def kmh_to_ms (q : ℚ) : ℚ := q / (36 / 10)

/-- `str(units).lower()`: the lowercased text for strings; other values'
representations never contain a wind-unit token and are modelled as "". -/
def jStrLower : J → String
  | .str s => s.toLower
  | _ => ""

/-- `_convert_windspeed` (`weather/normalize.py`). -/
def convert_windspeed (hourly : J) (units : Option J) (idx : Nat) :
    Except PyErr (Option ℚ) :=
  match atE hourly "windspeed_10m" idx with
  | .error e => .error e
  | .ok none => .ok none
  | .ok (some q) =>
    match units with
    | none => .ok (some q)
    | some u =>
      if ¬ jTruthy u then .ok (some q)
      else
        if containsSub (jStrLower u) "km/h" ∨ containsSub (jStrLower u) "kph" then
          .ok (some (kmh_to_ms q))
        else .ok (some q)

/-- One iteration of the `enumerate(timestamps)` loop of
`normalize_openmeteo`: a caught parse failure drops the entry.  Modelled:
a `None` entry, for which `pd.to_datetime` yields `NaT` and the real code
keeps a `NaT`-indexed row, is dropped here; theorems about this normalizer
therefore assume payloads whose `time` entries are non-null. -/
def omRow (hourly : J) (windUnits : Option J) (idx : Nat) (tsv : J) :
    Except PyErr (Option NRow) :=
  match toDatetime tsv with
  | .err => .ok none
  | .nat => .ok none
  | .ok t =>
    match atE hourly "temperature_2m" idx with
    | .error e => .error e
    | .ok temp =>
      match convert_windspeed hourly windUnits idx with
      | .error e => .error e
      | .ok wind =>
        match atE hourly "winddirection_10m" idx with
        | .error e => .error e
        | .ok wdeg =>
          match atE hourly "cloudcover" idx with
          | .error e => .error e
          | .ok cl =>
            match atE hourly "relativehumidity_2m" idx with
            | .error e => .error e
            | .ok hum =>
              match atE hourly "uv_index" idx with
              | .error e => .error e
              | .ok uv =>
                match atE hourly "shortwave_radiation" idx with
                | .error e => .error e
                | .ok ghi =>
                  .ok (some
                    { timestamp := t,
                      temp_C := temp.map J.num,
                      wind_ms := wind.map J.num,
                      wind_deg := wdeg.map J.num,
                      clouds_pct := cl.map J.num,
                      humidity := hum.map J.num,
                      uvi := uv.map J.num,
                      ghi_Wm2 := ghi.map J.num })

/-- The timestamp loop of `normalize_openmeteo`, carrying the enumeration
index. -/
def omRows (hourly : J) (windUnits : Option J) :
    Nat → List J → Except PyErr (List NRow)
  | _, [] => .ok []
  | i, tsv :: rest =>
    match omRow hourly windUnits i tsv with
    | .error e => .error e
    | .ok r =>
      match omRows hourly windUnits (i + 1) rest with
      | .error e => .error e
      | .ok rs => .ok (r.toList ++ rs)

/-- `normalize_openmeteo` (`weather/normalize.py`). -/
def normalize_openmeteo (payload : J) : Except PyErr Frame :=
  if ¬ jTruthy payload ∨ ¬ jIsObj payload then .ok (build_frame [])
  else
    match jOptGet payload "hourly" with
    | none => .ok (build_frame [])
    | some hourly =>
      if ¬ jTruthy hourly ∨ ¬ jIsObj hourly then .ok (build_frame [])
      else
        match jOptGet hourly "time" with
        | none => .ok (build_frame [])
        | some ts =>
          if ¬ jTruthy ts ∨ ¬ jIsArr ts then .ok (build_frame [])
          else
            match
              omRows hourly
                (if jIsObj (jGetD payload "hourly_units" J.objNil) then
                  jOptGet (jGetD payload "hourly_units" J.objNil) "windspeed_10m"
                 else none)
                0 (jElems ts) with
            | .error e => .error e
            | .ok rows => .ok (build_frame rows)

/-- One interval of `normalize_tomorrow`: non-dict intervals and
missing/unparsable `startTime`s are skipped; a non-dict `values` is
replaced by an empty dict; fields go through `_safe_float`. -/
def tmRow (interval : J) : Option NRow :=
  if ¬ jIsObj interval then none
  else
    match jOptGet interval "startTime" with
    | none => none
    | some tsv =>
      match toDatetime tsv with
      | .err => none
      | .nat => none
      | .ok t =>
        let values :=
          match jOptGet interval "values" with
          | some v => if jIsObj v then v else J.objNil
          | none => J.objNil
        some
          { timestamp := t,
            temp_C := (safe_float (jOptGet values "temperature")).map J.num,
            wind_ms := (safe_float (jOptGet values "windSpeed")).map J.num,
            wind_deg := (safe_float (jOptGet values "windDirection")).map J.num,
            clouds_pct := (safe_float (jOptGet values "cloudCover")).map J.num,
            humidity := (safe_float (jOptGet values "humidity")).map J.num,
            uvi := (safe_float (jOptGet values "uvIndex")).map J.num,
            ghi_Wm2 := (safe_float (jOptGet values "solarGHI")).map J.num }

/-- `normalize_tomorrow` (`weather/normalize.py`).  Every access is guarded
in the source, so the translation is total: no exception escapes. -/
def normalize_tomorrow (payload : J) : Frame :=
  if ¬ jTruthy payload ∨ ¬ jIsObj payload then build_frame []
  else
    match jOptGet payload "data" with
    | none => build_frame []
    | some data =>
      if ¬ jTruthy data ∨ ¬ jIsObj data then build_frame []
      else
        match jOptGet data "timelines" with
        | none => build_frame []
        | some tls =>
          if ¬ jTruthy tls ∨ ¬ jIsArr tls then build_frame []
          else
            build_frame ((jElems tls).flatMap (fun tl =>
              if ¬ jIsObj tl then []
              else
                match jOptGet tl "intervals" with
                | none => []
                | some ivs =>
                  if ¬ jTruthy ivs ∨ ¬ jIsArr ivs then []
                  else (jElems ivs).filterMap tmRow))

/-! ## Schema invariants of the normalizers (C4, C5) -/

theorem ensure_schema_cols (f : Frame) :
    (ensure_schema f).cols = REQUIRED_COLUMNS := rfl

theorem ensure_schema_index_sorted (f : Frame) :
    (ensure_schema f).index.Sorted (· ≤ ·) := by
  have h : List.Sorted rowLE (f.rows.insertionSort rowLE) :=
    List.sorted_insertionSort rowLE f.rows
  rw [ensure_schema, Frame.index]
  simp only [List.map_map]
  exact List.Pairwise.map _ (fun a b hab => hab) h

theorem build_frame_cols (rows : List NRow) :
    (build_frame rows).cols = REQUIRED_COLUMNS := by
  rw [build_frame]; split
  · rfl
  · exact ensure_schema_cols _

theorem build_frame_sorted (rows : List NRow) :
    (build_frame rows).index.Sorted (· ≤ ·) := by
  rw [build_frame]; split
  · simp [Frame.index]
  · exact ensure_schema_index_sorted _

theorem applyFloatRows_index (c : String)
    (rows rows' : List (Time × (String → Cell)))
    (h : applyFloatRows c rows = .ok rows') :
    rows'.map (·.1) = rows.map (·.1) := by
  induction rows generalizing rows' with
  | nil =>
    rw [applyFloatRows] at h
    cases h
    rfl
  | cons p rest ih =>
    rw [applyFloatRows] at h
    split at h
    · cases h
    · split at h
      · cases h
      · cases h
        rw [List.map_cons, List.map_cons, ih _ (by assumption)]

theorem applyFloatCol_ok (f : Frame) (c : String) (f' : Frame)
    (h : applyFloatCol f c = .ok f') :
    f'.cols = f.cols ∧ f'.index = f.index := by
  rw [applyFloatCol] at h
  split at h
  · cases h
  · cases h
    exact ⟨rfl, applyFloatRows_index c f.rows _ (by assumption)⟩

theorem owFloatSteps_ok (f f' : Frame) (h : owFloatSteps f = .ok f') :
    f'.cols = f.cols ∧ f'.index = f.index := by
  rw [owFloatSteps] at h
  split at h
  · cases h; exact ⟨rfl, rfl⟩
  · split at h
    · cases h
    · have h1 := applyFloatCol_ok f "temp_C" _ (by assumption)
      have h2 := applyFloatCol_ok _ "wind_ms" _ h
      exact ⟨h2.1.trans h1.1, h2.2.trans h1.2⟩

theorem dedupKeepLast_sublist (rows : List (Time × (String → Cell))) :
    List.Sublist (dedupKeepLast rows) rows := by
  induction rows with
  | nil => exact List.Sublist.refl _
  | cons x xs ih =>
    rw [dedupKeepLast]
    split
    · exact ih.cons x
    · exact ih.cons₂ x

theorem dedupKeepLast_nodup_keys (rows : List (Time × (String → Cell))) :
    ((dedupKeepLast rows).map (·.1)).Nodup := by
  induction rows with
  | nil => simp [dedupKeepLast]
  | cons x xs ih =>
    rw [dedupKeepLast]
    split
    · exact ih
    · rename_i hnot
      rw [List.map_cons, List.nodup_cons]
      refine ⟨fun hmem => ?_, ih⟩
      obtain ⟨y, hy, hyx⟩ := List.mem_map.mp hmem
      have hy' : y ∈ xs := (dedupKeepLast_sublist xs).mem hy
      exact hnot (List.any_eq_true.mpr ⟨y, hy', by simp [hyx]⟩)

theorem owDedupStep_ok (f f' : Frame) (hs : f.index.Sorted (· ≤ ·))
    (h : owDedupStep f = .ok f') :
    f'.cols = f.cols ∧ f'.index.Sorted (· ≤ ·) ∧ f'.index.Nodup := by
  rw [owDedupStep] at h
  split at h
  · cases h
    rename_i hemp
    have hrows : f.rows = [] := by simpa [Frame.isEmpty] using hemp
    exact ⟨rfl, hs, by simp [Frame.index, hrows]⟩
  · cases h
    refine ⟨rfl, ?_, dedupKeepLast_nodup_keys f.rows⟩
    exact List.Pairwise.sublist (List.Sublist.map _ (dedupKeepLast_sublist f.rows)) hs

/-- The parse outcome of one `time` entry, as an option. -/
def parseTime (v : J) : Option Time :=
  match toDatetime v with
  | .ok t => some t
  | _ => none

/-- No value of the `hourly` dict is itself a dict: integer-indexing such a
value is what raises the uncaught `KeyError` in `_at`. -/
def omNoDictValues (hourly : J) : Bool :=
  (jItems hourly).all (fun p => ¬ jIsObj p.2)

theorem jOptGet_mem {d : J} {k : String} {v : J} (h : jOptGet d k = some v) :
    v ∈ (jItems d).map (·.2) := by
  rw [jOptGet, jGet] at h
  cases hf : (jItems d).find? (fun p => p.1 = k) with
  | none => rw [hf] at h; cases h
  | some pr =>
    rw [hf] at h
    simp only [Option.map_some'] at h
    split at h
    · cases h
    · injection h with h'
      exact List.mem_map.mpr ⟨pr, List.mem_of_find?_eq_some hf, h'⟩

theorem jIndexRes_not_key {v : J} (hobj : ¬ jIsObj v = true) (i : Nat) :
    jIndexRes v i ≠ .uncaughtKey := by
  intro h
  cases v with
  | arrNil =>
    cases hg : (jElems J.arrNil)[i]? <;> simp [jIndexRes, jIsArr, hg] at h
  | arrCons a b =>
    cases hg : (jElems (J.arrCons a b))[i]? <;>
      simp [jIndexRes, jIsArr, hg] at h
  | str s =>
    cases hg : s.data[i]? <;> simp [jIndexRes, jIsArr, jIsObj, hg] at h
  | objNil => exact hobj rfl
  | objCons k v2 r => exact hobj rfl
  | null => simp [jIndexRes, jIsArr, jIsObj] at h
  | bool b => simp [jIndexRes, jIsArr, jIsObj] at h
  | num q => simp [jIndexRes, jIsArr, jIsObj] at h
  | time t => simp [jIndexRes, jIsArr, jIsObj] at h

theorem atTryKey_safe (hourly : J) (k : String) (i : Nat)
    (hsafe : omNoDictValues hourly) :
    ∃ r, atTryKey hourly k i = .ok r := by
  rw [atTryKey]
  cases hg : jOptGet hourly k with
  | none => exact ⟨none, rfl⟩
  | some values =>
    dsimp only
    have hobj : ¬ jIsObj values = true := by
      have hmem := jOptGet_mem hg
      obtain ⟨pr, hpr, hprv⟩ := List.mem_map.mp hmem
      have := List.all_eq_true.mp hsafe pr hpr
      rw [hprv] at this
      simpa using this
    by_cases htr : jTruthy values
    · rw [if_neg (by simpa using htr)]
      cases hidx : jIndexRes values i with
      | uncaughtKey => exact absurd hidx (jIndexRes_not_key hobj i)
      | caught => exact ⟨none, rfl⟩
      | val j => cases j <;> exact ⟨_, rfl⟩
    · rw [if_pos (by simpa using htr)]
      exact ⟨none, rfl⟩

theorem atFallback_safe (hourly : J) (k : String) (i : Nat)
    (hsafe : omNoDictValues hourly) (keys : List String) :
    ∃ r, atFallback hourly k i keys = .ok r := by
  induction keys with
  | nil => exact ⟨none, rfl⟩
  | cons mk rest ih =>
    rw [atFallback]
    by_cases hpre : mk.startsWith (k ++ "_")
    · rw [if_neg (by simpa using hpre)]
      cases hg : jOptGet hourly mk with
      | none => exact ih
      | some cv =>
        dsimp only
        have hobj : ¬ jIsObj cv = true := by
          have hmem := jOptGet_mem hg
          obtain ⟨pr, hpr, hprv⟩ := List.mem_map.mp hmem
          have := List.all_eq_true.mp hsafe pr hpr
          rw [hprv] at this
          simpa using this
        by_cases htr : jTruthy cv
        · rw [if_neg (by simpa using htr)]
          cases hidx : jIndexRes cv i with
          | uncaughtKey => exact absurd hidx (jIndexRes_not_key hobj i)
          | caught => exact ih
          | val j =>
            cases j with
            | null => exact ih
            | num q => exact ⟨some q, rfl⟩
            | bool b => exact ⟨_, rfl⟩
            | str s => exact ih
            | time t => exact ih
            | arrNil => exact ih
            | arrCons hd tl => exact ih
            | objNil => exact ih
            | objCons key val rest2 => exact ih
        · rw [if_pos (by simpa using htr)]
          exact ih
    · rw [if_pos (by simpa using hpre)]
      exact ih

theorem atE_safe (hourly : J) (k : String) (i : Nat)
    (hsafe : omNoDictValues hourly) :
    ∃ r, atE hourly k i = .ok r := by
  rw [atE]
  obtain ⟨r, hr⟩ := atTryKey_safe hourly k i hsafe
  rw [hr]
  cases r with
  | none => exact atFallback_safe hourly k i hsafe _
  | some q => exact ⟨some q, rfl⟩

theorem convert_windspeed_safe (hourly : J) (u : Option J) (i : Nat)
    (hsafe : omNoDictValues hourly) :
    ∃ r, convert_windspeed hourly u i = .ok r := by
  rw [convert_windspeed]
  obtain ⟨r, hr⟩ := atE_safe hourly "windspeed_10m" i hsafe
  rw [hr]
  cases r with
  | none => exact ⟨none, rfl⟩
  | some q =>
    cases u with
    | none => exact ⟨some q, rfl⟩
    | some uv =>
      dsimp only
      split
      · exact ⟨some q, rfl⟩
      · split
        · exact ⟨_, rfl⟩
        · exact ⟨some q, rfl⟩

theorem toDatetime_nat_iff_null (v : J) : toDatetime v = .nat ↔ v = J.null := by
  cases v <;> simp [toDatetime]

theorem omRow_safe (hourly : J) (wu : Option J) (i : Nat) (tsv : J)
    (hsafe : omNoDictValues hourly) (hnn : tsv ≠ J.null) :
    ∃ r, omRow hourly wu i tsv = .ok r ∧
      r.map (·.timestamp) = parseTime tsv := by
  rw [omRow]
  cases hdt : toDatetime tsv with
  | err => exact ⟨none, rfl, by simp [parseTime, hdt]⟩
  | nat => exact absurd ((toDatetime_nat_iff_null tsv).mp hdt) hnn
  | ok t =>
    obtain ⟨r1, h1⟩ := atE_safe hourly "temperature_2m" i hsafe
    obtain ⟨r2, h2⟩ := convert_windspeed_safe hourly wu i hsafe
    obtain ⟨r3, h3⟩ := atE_safe hourly "winddirection_10m" i hsafe
    obtain ⟨r4, h4⟩ := atE_safe hourly "cloudcover" i hsafe
    obtain ⟨r5, h5⟩ := atE_safe hourly "relativehumidity_2m" i hsafe
    obtain ⟨r6, h6⟩ := atE_safe hourly "uv_index" i hsafe
    obtain ⟨r7, h7⟩ := atE_safe hourly "shortwave_radiation" i hsafe
    rw [h1, h2, h3, h4, h5, h6, h7]
    exact ⟨_, rfl, by rw [parseTime, hdt]; rfl⟩

theorem omRows_safe (hourly : J) (wu : Option J)
    (hsafe : omNoDictValues hourly) (l : List J)
    (hnn : ∀ v ∈ l, v ≠ J.null) (i : Nat) :
    ∃ rows, omRows hourly wu i l = .ok rows ∧
      rows.map (·.timestamp) = l.filterMap parseTime := by
  induction l generalizing i with
  | nil => exact ⟨[], rfl, rfl⟩
  | cons tsv rest ih =>
    obtain ⟨r, hr, hrt⟩ :=
      omRow_safe hourly wu i tsv hsafe (hnn tsv (List.mem_cons_self _ _))
    obtain ⟨rows, hrows, hrowst⟩ :=
      ih (fun v hv => hnn v (List.mem_cons_of_mem _ hv)) (i + 1)
    refine ⟨r.toList ++ rows, ?_, ?_⟩
    · rw [omRows, hr, hrows]
    · rw [List.map_append, hrowst, List.filterMap_cons]
      cases r with
      | none =>
        have : parseTime tsv = none := by simpa using hrt.symm
        rw [this]
        rfl
      | some row =>
        have : parseTime tsv = some row.timestamp := by simpa using hrt.symm
        rw [this]
        rfl

theorem onecall_ok_schema (p : J) (f : Frame)
    (h : normalize_openweather_onecall p = .ok f) :
    f.cols = REQUIRED_COLUMNS ∧ f.index.Sorted (· ≤ ·) := by
  rw [normalize_openweather_onecall] at h
  split at h
  · cases h
    exact ⟨build_frame_cols _, build_frame_sorted _⟩
  · split at h
    · cases h
    · split at h
      · cases h
      · obtain ⟨hc, hi⟩ := owFloatSteps_ok _ _ h
        exact ⟨hc.trans (build_frame_cols _), by rw [hi]; exact build_frame_sorted _⟩

theorem forecast_ok_schema (p : J) (f : Frame)
    (h : normalize_openweather_forecast p = .ok f) :
    f.cols = REQUIRED_COLUMNS ∧ f.index.Sorted (· ≤ ·) ∧ f.index.Nodup := by
  rw [normalize_openweather_forecast] at h
  split at h
  · cases h
    exact ⟨build_frame_cols _, build_frame_sorted _, by simp [build_frame, Frame.index]⟩
  · split at h
    · cases h
    · split at h
      · cases h
      · split at h
        · cases h
        · obtain ⟨hc, hs, hn⟩ := owDedupStep_ok _ _ (build_frame_sorted _) h
          exact ⟨hc.trans (build_frame_cols _), hs, hn⟩

theorem openmeteo_ok_schema (p : J) (f : Frame)
    (h : normalize_openmeteo p = .ok f) :
    f.cols = REQUIRED_COLUMNS ∧ f.index.Sorted (· ≤ ·) := by
  rw [normalize_openmeteo] at h
  split at h
  · cases h
    exact ⟨build_frame_cols _, build_frame_sorted _⟩
  · split at h
    · cases h
      exact ⟨build_frame_cols _, build_frame_sorted _⟩
    · split at h
      · cases h
        exact ⟨build_frame_cols _, build_frame_sorted _⟩
      · split at h
        · cases h
          exact ⟨build_frame_cols _, build_frame_sorted _⟩
        · split at h
          · cases h
            exact ⟨build_frame_cols _, build_frame_sorted _⟩
          · split at h
            · cases h
            · cases h
              exact ⟨build_frame_cols _, build_frame_sorted _⟩

theorem tomorrow_eq_build (p : J) :
    ∃ rows, normalize_tomorrow p = build_frame rows := by
  rw [normalize_tomorrow]
  split
  · exact ⟨[], rfl⟩
  · split
    · exact ⟨[], rfl⟩
    · split
      · exact ⟨[], rfl⟩
      · split
        · exact ⟨[], rfl⟩
        · split
          · exact ⟨[], rfl⟩
          · exact ⟨_, rfl⟩

/-- An OpenWeather One Call payload whose `current` and `hourly` sections
assert the same timestamp. -/
def owcOverlapPayload : J :=
  J.objCons "current" (J.objCons "dt" (J.num 100) (J.objCons "temp" (J.num 1) J.objNil))
    (J.objCons "hourly"
      (J.arrCons (J.objCons "dt" (J.num 100) (J.objCons "temp" (J.num 2) J.objNil))
        J.arrNil)
      J.objNil)

/-- An OpenWeather forecast payload whose `current` section and forecast
list assert the same timestamp with different temperatures. -/
def owfOverlapPayload : J :=
  J.objCons "current" (J.objCons "dt" (J.num 100) (J.objCons "temp" (J.num 1) J.objNil))
    (J.objCons "forecast"
      (J.objCons "list"
        (J.arrCons
          (J.objCons "dt" (J.num 100)
            (J.objCons "main" (J.objCons "temp" (J.num 5) J.objNil) J.objNil))
          J.arrNil)
        J.objNil)
      J.objNil)

/-- C4 counterexample: `normalize_openweather` (One Call mode, the default)
does **not** deduplicate timestamps: a payload whose `current` and `hourly`
sections share the timestamp 100 yields a frame whose index is
`[100, 100]` — not duplicate-free.  Only the forecast-mode normalizer
dedupes. -/
theorem normalize_onecall_duplicate_timestamps :
    (normalize_openweather owcOverlapPayload OWMode.onecall).toOption.map
        (fun f => (f.index, decide f.index.Nodup)) =
      some (([100, 100] : List Time), false) := by
  decide

/-- C4 (amended): every normalizer output (`.ok` outcome) has exactly the
seven canonical columns in canonical order and an ascending (UTC, in the
model) index; timestamp deduplication, keeping the most recently asserted
value, is performed only by `normalize_openweather` in forecast mode —
witnessed by the overlap payload, where the forecast row's `5` overrides
the `current` row's `1` — while One Call mode, `normalize_openmeteo` and
`normalize_tomorrow` may retain duplicate timestamps. -/
theorem normalize_schema_invariant :
    (∀ p f, normalize_openweather p OWMode.onecall = .ok f →
      f.cols = REQUIRED_COLUMNS ∧ f.index.Sorted (· ≤ ·)) ∧
    (∀ p f, normalize_openweather p OWMode.forecast = .ok f →
      f.cols = REQUIRED_COLUMNS ∧ f.index.Sorted (· ≤ ·) ∧ f.index.Nodup) ∧
    (∀ p f, normalize_openmeteo p = .ok f →
      f.cols = REQUIRED_COLUMNS ∧ f.index.Sorted (· ≤ ·)) ∧
    (∀ p, (normalize_tomorrow p).cols = REQUIRED_COLUMNS ∧
      (normalize_tomorrow p).index.Sorted (· ≤ ·)) ∧
    (normalize_openweather owfOverlapPayload OWMode.forecast).toOption.map
        (fun f => (f.index, f.cellAt 100 "temp_C")) =
      some ([100], some (J.num 5)) := by
  refine ⟨fun p f h => onecall_ok_schema p f h,
    fun p f h => forecast_ok_schema p f h,
    fun p f h => openmeteo_ok_schema p f h,
    fun p => ?_, by decide⟩
  obtain ⟨rows, hrows⟩ := tomorrow_eq_build p
  rw [hrows]
  exact ⟨build_frame_cols _, build_frame_sorted _⟩

/-- The frame the One Call normalizer produces on the overlap payload. -/
def owcWitnessFrame : Frame :=
  match normalize_openweather owcOverlapPayload OWMode.onecall with
  | .ok f => f
  | .error _ => empty_frame

/-- Witness for C4: the One Call clause applied at the overlap payload,
whose output frame has the canonical columns and a sorted index. -/
theorem normalize_schema_invariant_witness :
    normalize_openweather owcOverlapPayload OWMode.onecall = .ok owcWitnessFrame ∧
    owcWitnessFrame.cols = REQUIRED_COLUMNS ∧
    owcWitnessFrame.index.Sorted (· ≤ ·) :=
  ⟨rfl, normalize_schema_invariant.1 owcOverlapPayload owcWitnessFrame rfl⟩

/-- C5 counterexample: a normalizer *can* raise.  `normalize_openweather`
(One Call mode) on `{"current": "x"}` calls `.get` on the truthy non-dict
entry `"x"` — an uncaught `AttributeError`. -/
theorem normalize_onecall_attribute_error :
    normalize_openweather (J.objCons "current" (J.str "x") J.objNil)
        OWMode.onecall = .error .attributeError := rfl

/-- C5 (amended): (a) a payload failing the shape guards (falsy or not a
dict) yields the empty, schema-conformant frame from every normalizer;
(b) `normalize_tomorrow` never raises — it returns a built frame for every
payload; (c) `normalize_openmeteo`, on a well-shaped payload (dict with a
truthy dict `hourly`, a truthy list `time`, no dict-valued variable arrays —
which would raise an uncaught `KeyError` — and no `None` time entries —
which would survive as `NaT` rows), never raises, and drops exactly the
entries with unparsable timestamps, individually; (d) under the same
conditions a payload with no parsable timestamp yields the empty,
schema-conformant frame. -/
theorem normalize_no_raise_amended :
    (∀ p, ¬ (jTruthy p ∧ jIsObj p) →
      normalize_openweather_onecall p = .ok empty_frame ∧
      normalize_openweather_forecast p = .ok empty_frame ∧
      normalize_openmeteo p = .ok empty_frame ∧
      normalize_tomorrow p = empty_frame) ∧
    (∀ p, ∃ rows, normalize_tomorrow p = build_frame rows) ∧
    (∀ p hourly ts, jTruthy p → jIsObj p →
      jOptGet p "hourly" = some hourly → jTruthy hourly → jIsObj hourly →
      jOptGet hourly "time" = some ts → jTruthy ts → jIsArr ts →
      omNoDictValues hourly →
      (∀ v ∈ jElems ts, v ≠ J.null) →
      ∃ rows, normalize_openmeteo p = .ok (build_frame rows) ∧
        rows.map (·.timestamp) = (jElems ts).filterMap parseTime) ∧
    (∀ p hourly ts, jTruthy p → jIsObj p →
      jOptGet p "hourly" = some hourly → jTruthy hourly → jIsObj hourly →
      jOptGet hourly "time" = some ts → jTruthy ts → jIsArr ts →
      omNoDictValues hourly →
      (∀ v ∈ jElems ts, v ≠ J.null) →
      (jElems ts).filterMap parseTime = [] →
      normalize_openmeteo p = .ok empty_frame) := by
  have hmet : ∀ p hourly ts, jTruthy p → jIsObj p →
      jOptGet p "hourly" = some hourly → jTruthy hourly → jIsObj hourly →
      jOptGet hourly "time" = some ts → jTruthy ts → jIsArr ts →
      omNoDictValues hourly →
      (∀ v ∈ jElems ts, v ≠ J.null) →
      ∃ rows, normalize_openmeteo p = .ok (build_frame rows) ∧
        rows.map (·.timestamp) = (jElems ts).filterMap parseTime := by
    intro p hourly ts htp hop hgh hth hoh hgt htt hat hsafe hnn
    obtain ⟨rows, hrows, hts⟩ :=
      omRows_safe hourly
        (if jIsObj (jGetD p "hourly_units" J.objNil) then
          jOptGet (jGetD p "hourly_units" J.objNil) "windspeed_10m"
         else none)
        hsafe (jElems ts) hnn 0
    refine ⟨rows, ?_, hts⟩
    rw [normalize_openmeteo, if_neg (by simp [htp, hop]), hgh]
    dsimp only
    rw [if_neg (by simp [hth, hoh]), hgt]
    dsimp only
    rw [if_neg (by simp [htt, hat]), hrows]
  refine ⟨fun p hp => ?_, fun p => tomorrow_eq_build p, hmet,
    fun p hourly ts htp hop hgh hth hoh hgt htt hat hsafe hnn hempty => ?_⟩
  · have hcond : (¬ jTruthy p = true) ∨ (¬ jIsObj p = true) := by
      by_cases h1 : jTruthy p
      · by_cases h2 : jIsObj p
        · exact absurd ⟨h1, h2⟩ hp
        · exact Or.inr h2
      · exact Or.inl h1
    refine ⟨?_, ?_, ?_, ?_⟩
    · rw [normalize_openweather_onecall, if_pos hcond]; rfl
    · rw [normalize_openweather_forecast, if_pos hcond]; rfl
    · rw [normalize_openmeteo, if_pos hcond]; rfl
    · rw [normalize_tomorrow, if_pos hcond]; rfl
  · obtain ⟨rows, hrows, hts⟩ :=
      hmet p hourly ts htp hop hgh hth hoh hgt htt hat hsafe hnn
    rw [hempty] at hts
    have : rows = [] := List.map_eq_nil_iff.mp hts
    rw [this] at hrows
    exact hrows

/-- A well-shaped Open-Meteo payload with one parseable and one unparsable
timestamp. -/
def omWitnessHourly : J :=
  J.objCons "time" (J.arrCons (J.time 0) (J.arrCons (J.str "bad") J.arrNil))
    (J.objCons "temperature_2m" (J.arrCons (J.num 5) (J.arrCons (J.num 6) J.arrNil))
      J.objNil)

def omWitnessPayload : J := J.objCons "hourly" omWitnessHourly J.objNil

/-- Witness for C5: the Open-Meteo clause applied at the witness payload —
of its two time entries only the parseable one survives — and the
empty-frame clause applied at the non-dict payload `5`. -/
theorem normalize_no_raise_amended_witness :
    (∃ rows, normalize_openmeteo omWitnessPayload = .ok (build_frame rows) ∧
      rows.map (·.timestamp) = [(0 : Time)]) ∧
    normalize_openweather_onecall (J.num 5) = .ok empty_frame := by
  constructor
  · obtain ⟨rows, h1, h2⟩ :=
      normalize_no_raise_amended.2.2.1 omWitnessPayload omWitnessHourly
        (J.arrCons (J.time 0) (J.arrCons (J.str "bad") J.arrNil))
        (by decide) (by decide) (by decide) (by decide) (by decide)
        (by decide) (by decide) (by decide) (by decide) (by decide)
    exact ⟨rows, h1, h2.trans (by decide)⟩
  · exact (normalize_no_raise_amended.1 (J.num 5) (by decide)).1

/-! ## The SQLite cache (`weather/cache.py`) and cached fetch
(`weather/core.py`) -/

/-- A stored payload: either a successfully pickled frame, or bytes that
`pd.read_pickle` cannot deserialize. -/
inductive Blob where
  | pickled (f : Frame)
  | corrupt

/-- `pd.read_pickle` on a payload blob: corrupt bytes raise. -/
def read_pickle : Blob → Except PyErr Frame
  | .pickled f => .ok f
  | .corrupt => .error .unpicklingError

/-- A cache key: `(provider, scope, cache_key)` — the table's primary key. -/
abbrev CKey := String × String × String

/-- The SQLite store: `available = false` models a path on which
`sqlite3.connect` (or the schema setup) fails; `entries` are the table
rows `(key, expires_at, payload)`, unique per key. -/
structure CacheState where
  available : Bool
  entries : List (CKey × ℚ × Blob)

/-- `WeatherCache.__init__` / `_ensure_schema`: opening a store that cannot
be created raises; nothing in `cache.py` catches it. -/
def cacheInit (ok : Bool) : Except PyErr CacheState :=
  if ok then .ok { available := true, entries := [] } else .error .sqliteError

/-- The SELECT of `WeatherCache.get`. -/
def lookupEntry (st : CacheState) (k : CKey) : Option (CKey × ℚ × Blob) :=
  st.entries.find? (fun e => e.1 = k)

/-- The lazy DELETE of an expired row. -/
def deleteEntry (st : CacheState) (k : CKey) : CacheState :=
  { available := st.available, entries := st.entries.filter (fun e => ¬ e.1 = k) }

/-- `WeatherCache.get` at current time `now`: raises when the store cannot
be opened; `None` for an absent key; `None` (after a lazy delete) when
`expires_at < now`; otherwise the unpickled payload — corrupt bytes raise.
Nothing in `cache.py` catches any of these exceptions. -/
def cacheGet (st : CacheState) (now : ℚ) (k : CKey) :
    Except PyErr (Option Frame × CacheState) :=
  if ¬ st.available then .error .sqliteError
  else
    match lookupEntry st k with
    | none => .ok (none, st)
    | some e =>
      if e.2.1 < now then .ok (none, deleteEntry st k)
      else
        match read_pickle e.2.2 with
        | .error err => .error err
        | .ok f => .ok (some f, st)

/-- `WeatherCache.set` at current time `now`: REPLACE the row with expiry
`now + ttl`; raises when the store cannot be opened. -/
def cacheSet (st : CacheState) (now : ℚ) (k : CKey) (frame : Frame) (ttl : ℚ) :
    Except PyErr CacheState :=
  if ¬ st.available then .error .sqliteError
  else
    .ok { available := st.available,
          entries := (k, (now + ttl, Blob.pickled frame)) ::
            st.entries.filter (fun e => ¬ e.1 = k) }

/-- Provider TTL configuration (`Provider.__init__` / `ttl_for`,
`weather/core.py`). -/
structure ProviderCfg where
  name : String
  ttlDefault : Option ℚ
  ttlScopes : List (String × ℚ)

/-- `Provider.ttl_for`: the scope map first, then the explicit fallback,
then the provider default. -/
def ttl_for (p : ProviderCfg) (scope : String) (fallback : Option ℚ) : Option ℚ :=
  match p.ttlScopes.find? (fun e => e.1 = scope) with
  | some e => some e.2
  | none =>
    match fallback with
    | some fb => some fb
    | none => p.ttlDefault

/-- Python truthiness of `ttl_seconds` (`if ttl_seconds:`): `None` and `0`
are falsy, every other number — negatives included — is truthy. -/
def ttlTruthy : Option ℚ → Bool
  | none => false
  | some q => q ≠ 0

/-- `ttl_seconds = ttl if ttl is not None else self.ttl_for(scope)`. -/
def resolvedTTL (p : ProviderCfg) (scope : String) (ttl : Option ℚ) : Option ℚ :=
  match ttl with
  | some t => some t
  | none => ttl_for p scope none

/-- The observable outcome of one `Provider.fetch_with_cache` call. -/
structure FetchOutcome where
  data : Frame
  state : CacheState
  fetcherCalled : Bool
  cacheRead : Bool
  cacheWrote : Bool

/-- `Provider.fetch_with_cache` (`weather/core.py`): with a truthy resolved
TTL, consult the cache and return a hit; on a miss call the fetcher and
write the result back only when it is non-empty.  With a falsy TTL, call
the fetcher without touching the cache.  The serialized `json.dumps` cache
key is modelled as the given string. -/
def fetch_with_cache (p : ProviderCfg) (st : CacheState) (now : ℚ)
    (scope : String) (cacheKey : String) (fetcher : Frame) (ttl : Option ℚ) :
    Except PyErr FetchOutcome :=
  if ttlTruthy (resolvedTTL p scope ttl) then
    match cacheGet st now (p.name, scope, cacheKey) with
    | .error e => .error e
    | .ok (some cached, st') =>
      .ok { data := cached, state := st', fetcherCalled := false,
            cacheRead := true, cacheWrote := false }
    | .ok (none, st') =>
      if ¬ fetcher.isEmpty then
        match cacheSet st' now (p.name, scope, cacheKey) fetcher
            ((resolvedTTL p scope ttl).getD 0) with
        | .error e => .error e
        | .ok st'' =>
          .ok { data := fetcher, state := st'', fetcherCalled := true,
                cacheRead := true, cacheWrote := true }
      else
        .ok { data := fetcher, state := st', fetcherCalled := true,
              cacheRead := true, cacheWrote := false }
  else
    .ok { data := fetcher, state := st, fetcherCalled := true,
          cacheRead := false, cacheWrote := false }

/-- C6 (amended): `set` stores the series under an absolute expiry equal to
current time plus ttl; an immediately following `get` with the same key
returns the stored series; a later `get` is a miss exactly when current
time is *strictly* greater than the expiry — at exactly `set`-time + ttl
the entry is still served, since `get` expires on `expires_at < now`. -/
theorem cache_set_then_get (st st' : CacheState) (now ttl : ℚ) (k : CKey)
    (f : Frame) (hset : cacheSet st now k f ttl = .ok st') (httl : 0 ≤ ttl) :
    lookupEntry st' k = some (k, now + ttl, Blob.pickled f) ∧
    cacheGet st' now k = .ok (some f, st') ∧
    (∀ now2, now + ttl < now2 →
      cacheGet st' now2 k = .ok (none, deleteEntry st' k)) ∧
    (∀ now2, now2 ≤ now + ttl → cacheGet st' now2 k = .ok (some f, st')) := by
  rw [cacheSet] at hset
  split at hset
  · cases hset
  · cases hset
    rename_i havail
    have hav : st.available = true := by
      by_cases h : st.available
      · exact h
      · exact absurd (by simpa using h) havail
    have hlook : lookupEntry
        { available := st.available,
          entries := (k, (now + ttl, Blob.pickled f)) ::
            st.entries.filter (fun e => ¬ e.1 = k) } k =
        some (k, now + ttl, Blob.pickled f) := by
      simp [lookupEntry, List.find?_cons]
    refine ⟨hlook, ?_, ?_, ?_⟩
    · rw [cacheGet, if_neg (by simp [hav]), hlook]
      dsimp only
      rw [if_neg (not_lt.mpr (by linarith))]
      rfl
    · intro now2 h2
      rw [cacheGet, if_neg (by simp [hav]), hlook]
      dsimp only
      rw [if_pos (by simpa using h2)]
    · intro now2 h2
      rw [cacheGet, if_neg (by simp [hav]), hlook]
      dsimp only
      rw [if_neg (not_lt.mpr (by linarith))]
      rfl

/-- A fresh, available, empty store. -/
def emptyStore : CacheState := { available := true, entries := [] }

/-- The state after `set(("p","hourly","k"), empty series, ttl=60)` at
simulated time 0 on a fresh, available store. -/
def c6state : CacheState :=
  match cacheSet emptyStore 0 ("p", "hourly", "k") empty_frame 60 with
  | .ok s => s
  | .error _ => emptyStore

/-- A `get` that finds an unexpired pickled entry returns it. -/
theorem cacheGet_hit (st : CacheState) (now : ℚ) (k : CKey) (e : ℚ)
    (f : Frame) (hav : st.available = true)
    (hlook : lookupEntry st k = some (k, e, Blob.pickled f))
    (hexp : ¬ e < now) :
    cacheGet st now k = .ok (some f, st) := by
  rw [cacheGet, if_neg (by simp [hav]), hlook]
  dsimp only
  rw [if_neg hexp]
  rfl

/-- C6 counterexample: at simulated time exactly 60 — i.e. "current time ≥
60 seconds after the set" — `get` still returns the stored series, not a
miss: expiry uses the strict comparison `expires_at < time.time()`. -/
theorem cache_expiry_at_boundary_hit :
    cacheGet c6state 60 ("p", "hourly", "k") = .ok (some empty_frame, c6state) :=
  cacheGet_hit c6state 60 ("p", "hourly", "k") (0 + 60) empty_frame rfl rfl
    (by norm_num)

/-- Witness for C6: the round-trip theorem applied at the concrete store:
expiry 0 + 60 is recorded, an immediate get returns the series, and a get
at time 61 misses. -/
theorem cache_set_then_get_witness :
    cacheSet emptyStore 0 ("p", "hourly", "k") empty_frame 60 = .ok c6state ∧
    lookupEntry c6state ("p", "hourly", "k") =
      some (("p", "hourly", "k"), 0 + 60, Blob.pickled empty_frame) ∧
    cacheGet c6state 0 ("p", "hourly", "k") = .ok (some empty_frame, c6state) ∧
    cacheGet c6state 61 ("p", "hourly", "k") =
      .ok (none, deleteEntry c6state ("p", "hourly", "k")) := by
  have h := cache_set_then_get emptyStore c6state
    0 60 ("p", "hourly", "k") empty_frame rfl (by norm_num)
  exact ⟨rfl, h.1, h.2.1, h.2.2.1 61 (by norm_num)⟩

/-- A store holding one undeserializable entry. -/
def corruptStore : CacheState :=
  { available := true, entries := [(("p", "s", "k"), (1000, Blob.corrupt))] }

/-- C7 counterexample: a corrupted entry is *not* treated as a miss —
`WeatherCache.get` propagates the deserialization error (nothing in
`cache.py` catches it). -/
theorem cache_corrupt_entry_raises :
    cacheGet corruptStore 0 ("p", "s", "k") = .error .unpicklingError := rfl

/-- C7 (amended): `get` returns `None` for absent keys and for expired
entries (deleting the latter lazily), but a corrupted payload makes `get`
raise, and an unavailable store makes construction, `get` and `set` all
raise — no error is downgraded to a miss anywhere in `cache.py`. -/
theorem cache_error_propagation :
    (∀ st now k, st.available = false → cacheGet st now k = .error .sqliteError) ∧
    (∀ st now k f ttl, st.available = false →
      cacheSet st now k f ttl = .error .sqliteError) ∧
    cacheInit false = .error .sqliteError ∧
    (∀ st now k, st.available = true → lookupEntry st k = none →
      cacheGet st now k = .ok (none, st)) ∧
    (∀ st now k e, st.available = true → lookupEntry st k = some e →
      e.2.1 < now → cacheGet st now k = .ok (none, deleteEntry st k)) ∧
    (∀ st now k e, st.available = true → lookupEntry st k = some e →
      ¬ e.2.1 < now → e.2.2 = Blob.corrupt →
      cacheGet st now k = .error .unpicklingError) := by
  refine ⟨fun st now k h => ?_, fun st now k f ttl h => ?_, rfl,
    fun st now k hav hlook => ?_, fun st now k e hav hlook hexp => ?_,
    fun st now k e hav hlook hexp hcor => ?_⟩
  · rw [cacheGet, if_pos (by simp [h])]
  · rw [cacheSet, if_pos (by simp [h])]
  · rw [cacheGet, if_neg (by simp [hav]), hlook]
  · rw [cacheGet, if_neg (by simp [hav]), hlook]
    dsimp only
    rw [if_pos hexp]
  · rw [cacheGet, if_neg (by simp [hav]), hlook]
    dsimp only
    rw [if_neg hexp, hcor]
    rfl

/-- An unavailable store. -/
def deadStore : CacheState := { available := false, entries := [] }

/-- Witness for C7: the propagation clauses applied on concrete stores. -/
theorem cache_error_propagation_witness :
    cacheGet deadStore 0 ("p", "s", "k") = .error .sqliteError ∧
    cacheSet deadStore 0 ("p", "s", "k") empty_frame 60 = .error .sqliteError ∧
    cacheGet emptyStore 0 ("p", "s", "k") = .ok (none, emptyStore) :=
  ⟨cache_error_propagation.1 _ 0 _ rfl,
   cache_error_propagation.2.1 _ 0 _ empty_frame 60 rfl,
   cache_error_propagation.2.2.2.1 _ 0 _ rfl rfl⟩

theorem lookupEntry_delete (st : CacheState) (k : CKey) :
    lookupEntry (deleteEntry st k) k = none := by
  rw [lookupEntry, deleteEntry, List.find?_eq_none]
  intro e he
  have := List.of_mem_filter he
  simpa using this

/-- A miss leaves (or lazily puts) the store in a state that still misses
the same key, at any later (or any) time. -/
theorem cacheGet_miss_stable (st st' : CacheState) (now now2 : ℚ) (k : CKey)
    (h : cacheGet st now k = .ok (none, st')) :
    cacheGet st' now2 k = .ok (none, st') := by
  rw [cacheGet] at h
  split at h
  · cases h
  · rename_i hav
    have hav' : st.available = true := by
      by_cases hb : st.available
      · exact hb
      · exact absurd (by simpa using hb) hav
    cases hlook : lookupEntry st k with
    | none =>
      rw [hlook] at h
      cases h
      rw [cacheGet, if_neg hav, hlook]
    | some e =>
      rw [hlook] at h
      dsimp only at h
      split at h
      · cases h
        rw [cacheGet, if_neg (by simp [deleteEntry, hav']),
          lookupEntry_delete]
      · split at h
        · cases h
        · cases h

/-- C10: in `Provider.fetch_with_cache`, (a) a falsy resolved TTL (`None`
or `0`) means the cache is neither read nor written and the fetcher runs,
leaving the store untouched — so the fetcher runs on every such call; (b)
on a cache miss, a fetch returning an empty frame is not written back and
the store still misses that key afterwards, so the next call fetches
again rather than serving the empty result from cache. -/
theorem fetch_with_cache_ttl_and_empty :
    (∀ p st now scope key fetcher ttl,
      ttlTruthy (resolvedTTL p scope ttl) = false →
      fetch_with_cache p st now scope key fetcher ttl =
        .ok { data := fetcher, state := st, fetcherCalled := true,
              cacheRead := false, cacheWrote := false }) ∧
    (∀ p st st' now scope key fetcher ttl,
      ttlTruthy (resolvedTTL p scope ttl) = true →
      cacheGet st now (p.name, scope, key) = .ok (none, st') →
      fetcher.isEmpty = true →
      fetch_with_cache p st now scope key fetcher ttl =
        .ok { data := fetcher, state := st', fetcherCalled := true,
              cacheRead := true, cacheWrote := false } ∧
      (∀ now2, cacheGet st' now2 (p.name, scope, key) = .ok (none, st'))) := by
  refine ⟨fun p st now scope key fetcher ttl h => ?_,
    fun p st st' now scope key fetcher ttl h hmiss hemp => ?_⟩
  · rw [fetch_with_cache, if_neg (by simp [h])]
  · constructor
    · rw [fetch_with_cache, if_pos h, hmiss]
      dsimp only
      rw [if_neg (by simp [hemp])]
    · intro now2
      exact cacheGet_miss_stable st st' now now2 _ hmiss

/-- A provider configuration with no TTL anywhere. -/
def cfgNoTTL : ProviderCfg := { name := "prov", ttlDefault := none, ttlScopes := [] }

/-- A provider configuration with a 60-second default TTL. -/
def cfgTTL60 : ProviderCfg := { name := "prov", ttlDefault := some 60, ttlScopes := [] }

/-- Witness for C10: with no TTL configured the fetcher runs and the cache
is untouched; with a TTL, an empty fetch on an empty store is returned
uncached and the store still misses. -/
theorem fetch_with_cache_ttl_and_empty_witness :
    fetch_with_cache cfgNoTTL emptyStore 0 "hourly" "k" empty_frame none =
      .ok { data := empty_frame, state := emptyStore, fetcherCalled := true,
            cacheRead := false, cacheWrote := false } ∧
    fetch_with_cache cfgTTL60 emptyStore 0 "hourly" "k" empty_frame none =
      .ok { data := empty_frame, state := emptyStore, fetcherCalled := true,
            cacheRead := true, cacheWrote := false } ∧
    cacheGet emptyStore 1 ("prov", "hourly", "k") = .ok (none, emptyStore) :=
  have h2 := fetch_with_cache_ttl_and_empty.2 cfgTTL60 emptyStore emptyStore
    0 "hourly" "k" empty_frame none rfl rfl rfl
  ⟨fetch_with_cache_ttl_and_empty.1 cfgNoTTL emptyStore 0 "hourly" "k"
      empty_frame none rfl,
   h2.1, h2.2 1⟩

/-! ## Resampling (`resample_frame`, `weather/core.py`) and the nowcast
pipeline (`WeatherRouter.get_nowcast`, `weather/router.py`) -/

/-- A cell as a float: pandas' numeric columns hold numbers or `NaN`; a
non-numeric object column would make time interpolation raise. -/
def cellNum : Cell → Option ℚ
  | some (.num q) => some q
  | _ => none

/-- The left edge of the resampling bin containing `t` (bins are anchored
at midnight, and the bin width divides a day, so edges are the multiples of
`freq`). -/
def floorFreq (t freq : ℚ) : ℚ := freq * (⌊t / freq⌋ : ℤ)

/-- Consecutive bin edges: `n` values starting at `start`, stepping by
`freq`. -/
def gridFrom (start freq : ℚ) : Nat → List Time
  | 0 => []
  | n + 1 => start :: gridFrom (start + freq) freq n

/-- The label grid of `frame.resample(freq)`: bin edges from the first
index value's bin to the last one's. -/
def mkGrid (first last freq : ℚ) : List Time :=
  gridFrom (floorFreq first freq) freq ((⌊last / freq⌋ - ⌊first / freq⌋).toNat + 1)

/-- One column of the frame sampled onto the grid (`asfreq` semantics:
grid points not in the index become missing; off-grid values are dropped). -/
def gridSeries (w : Frame) (grid : List Time) (c : String) :
    List (Time × Option ℚ) :=
  grid.map (fun t => (t, cellNum (w.cellAt t c)))

/-- The last valid sample strictly before position `i`. -/
def prevValid (s : List (Time × Option ℚ)) (i : Nat) : Option (Time × ℚ) :=
  ((s.take i).reverse).findSome? (fun p => p.2.map (fun v => (p.1, v)))

/-- The first valid sample strictly after position `i`. -/
def nextValid (s : List (Time × Option ℚ)) (i : Nat) : Option (Time × ℚ) :=
  (s.drop (i + 1)).findSome? (fun p => p.2.map (fun v => (p.1, v)))

/-- `interpolate(method="time")` at one grid position: keep a present
value; fill a missing one time-weighted between the neighbouring valid
samples; carry the last valid value into trailing gaps (pandas'
forward-only default); leave leading gaps missing. -/
def interpPoint (s : List (Time × Option ℚ)) (i : Nat) (t : Time)
    (cur : Option ℚ) : Option ℚ :=
  match cur with
  | some v => some v
  | none =>
    match prevValid s i, nextValid s i with
    | some (tp, vp), some (tn, vn) => some (vp + (vn - vp) * ((t - tp) / (tn - tp)))
    | some (_, vp), none => some vp
    | none, _ => none

/-- Position-tagged enumeration of a list, starting at index `i`. -/
def enumT : Nat → List Time → List (Nat × Time)
  | _, [] => []
  | i, t :: rest => (i, t) :: enumT (i + 1) rest

/-- The body of `resample_frame(frame, freq, method="interpolate")` on a
non-empty, schema-enforced frame: build the label grid and interpolate
every canonical column onto it. -/
def resampleCore (w : Frame) (freq : ℚ) : Frame :=
  { cols := REQUIRED_COLUMNS,
    rows := (enumT 0 (mkGrid (w.index.headD 0) (w.index.getLastD 0) freq)).map
      (fun p =>
        (p.2, fun c =>
          if c ∈ REQUIRED_COLUMNS then
            (interpPoint
              (gridSeries w (mkGrid (w.index.headD 0) (w.index.getLastD 0) freq) c)
              p.1 p.2 (cellNum (w.cellAt p.2 c))).map J.num
          else none)) }

/-- `resample_frame(frame, freq, method="interpolate")` (`weather/core.py`):
empty frames pass through; otherwise enforce the schema, resample with
time interpolation, and enforce the schema again. -/
def resample_frame_interpolate (f : Frame) (freq : ℚ) : Frame :=
  if f.rows.isEmpty then f
  else ensure_schema (resampleCore (ensure_schema f) freq)

/-- `merged[list(REQUIRED_COLUMNS)]`: column projection. -/
def projectCols (f : Frame) (cs : List String) : Frame :=
  { cols := cs, rows := f.rows }

/-- `series.reindex(index, method="pad")` at one target timestamp: the row
at the last original timestamp ≤ the target, if any. -/
def padLookup (rows : List (Time × (String → Cell))) (t : Time) :
    Option (Time × (String → Cell)) :=
  rows.foldl (fun acc r => if r.1 ≤ t then some r else acc) none

/-- `resampled["source"] = merged["source"].reindex(resampled.index,
method="pad")`. -/
def addSourcePad (merged resampled : Frame) : Frame :=
  { cols := resampled.cols ++ ["source"],
    rows := resampled.rows.map (fun p =>
      (p.1, fun c =>
        if c = "source" then
          match padLookup merged.rows p.1 with
          | some r => if "source" ∈ merged.cols then r.2 "source" else none
          | none => none
        else p.2 c)) }

/-- A provider as `get_nowcast` sees it: its nowcast capability flag and
the outcome of its `get_nowcast` call. -/
structure NEntry where
  name : String
  supportsNowcast : Bool
  outcome : Except Unit Frame

/-- One iteration of the provider loop of `WeatherRouter.get_nowcast`:
skip providers without nowcast support, skip (and log, counted) raising
providers, skip empty frames, collect the schema-enforced rest. -/
def nowcastStep (acc : List (String × Frame) × Nat) (p : NEntry) :
    List (String × Frame) × Nat :=
  if ¬ p.supportsNowcast then acc
  else
    match p.outcome with
    | .error _ => (acc.1, acc.2 + 1)
    | .ok fr =>
      if (ensure_schema fr).isEmpty then acc
      else (acc.1 ++ [(p.name, ensure_schema fr)], acc.2)

/-- `WeatherRouter.get_nowcast` on an already priority-sorted source list:
collect, merge, and — unless the merge is empty — resample the canonical
columns onto a 15-minute (900 s) grid with time interpolation and
forward-fill the `source` column onto the new grid. -/
def routerGetNowcast (sources : List NEntry) : Frame × Nat :=
  let fw := sources.foldl nowcastStep ([], 0)
  let merged := merge fw.1
  if merged.isEmpty then (merged, fw.2)
  else
    (addSourcePad merged
      (resample_frame_interpolate (projectCols merged REQUIRED_COLUMNS) 900),
     fw.2)

/-! ## Characterization of the nowcast pipeline (C9) -/

/-- The forward-fill specification: the `source` cell of the last merged
row at or before `t`. -/
def padSpec (merged : Frame) (t : Time) : Cell :=
  match (merged.rows.filter (fun r => r.1 ≤ t)).getLast? with
  | some r => r.2 "source"
  | none => none

/-- The last valid sample strictly before time `t`. -/
def specPrev (s : List (Time × Option ℚ)) (t : Time) : Option (Time × ℚ) :=
  ((s.filter (fun p => p.1 < t)).reverse).findSome?
    (fun p => p.2.map (fun v => (p.1, v)))

/-- The first valid sample strictly after time `t`. -/
def specNext (s : List (Time × Option ℚ)) (t : Time) : Option (Time × ℚ) :=
  (s.filter (fun p => t < p.1)).findSome? (fun p => p.2.map (fun v => (p.1, v)))

/-- Time-aware interpolation at `t`, specified by time rather than by
position: keep a present value; otherwise weight the neighbouring valid
samples by time distance; carry the last valid value forward into trailing
gaps; leave leading gaps missing. -/
def timeInterpSpec (s : List (Time × Option ℚ)) (t : Time) (cur : Option ℚ) :
    Option ℚ :=
  match cur with
  | some v => some v
  | none =>
    match specPrev s t, specNext s t with
    | some (tp, vp), some (tn, vn) => some (vp + (vn - vp) * ((t - tp) / (tn - tp)))
    | some (_, vp), none => some vp
    | none, _ => none

theorem padLookup_fold (rows : List (Time × (String → Cell))) (t : Time)
    (acc : Option (Time × (String → Cell))) :
    rows.foldl (fun a r => if r.1 ≤ t then some r else a) acc =
      match (rows.filter (fun r => r.1 ≤ t)).getLast? with
      | some r => some r
      | none => acc := by
  induction rows generalizing acc with
  | nil => rfl
  | cons x xs ih =>
    rw [List.foldl_cons, List.filter_cons]
    by_cases hx : x.1 ≤ t
    · rw [if_pos hx, ih, if_pos (by simpa using hx), List.getLast?_cons]
      cases hlast : (xs.filter (fun r => decide (r.1 ≤ t))).getLast? with
      | none => rfl
      | some r => rfl
    · rw [if_neg hx, ih, if_neg (by simpa using hx)]

theorem padLookup_eq (rows : List (Time × (String → Cell))) (t : Time) :
    padLookup rows t = (rows.filter (fun r => r.1 ≤ t)).getLast? := by
  rw [padLookup, padLookup_fold]
  cases (rows.filter (fun r => r.1 ≤ t)).getLast? <;> rfl

theorem enumT_map_snd (i : Nat) (l : List Time) :
    (enumT i l).map (·.2) = l := by
  induction l generalizing i with
  | nil => rfl
  | cons t rest ih => rw [enumT, List.map_cons, ih]

theorem mkGrid_ne_nil (a b f : ℚ) : mkGrid a b f ≠ [] := by
  rw [mkGrid, gridFrom]
  exact List.cons_ne_nil _ _

theorem gridFrom_chain' (f : ℚ) :
    ∀ (n : Nat) (start : ℚ),
      (gridFrom start f n).Chain' (fun x y => y = x + f) := by
  intro n
  induction n with
  | zero => intro start; exact List.chain'_nil
  | succ m ih =>
    intro start
    rw [gridFrom]
    cases m with
    | zero => simp [gridFrom]
    | succ m2 =>
      rw [gridFrom]
      exact List.Chain'.cons rfl (by rw [← gridFrom]; exact ih (start + f))

theorem mkGrid_chain' (a b f : ℚ) :
    (mkGrid a b f).Chain' (fun x y => y = x + f) := by
  rw [mkGrid]
  exact gridFrom_chain' f _ _

theorem mkGrid_pairwise_lt (a b f : ℚ) (hf : 0 < f) :
    (mkGrid a b f).Pairwise (· < ·) := by
  have h := (mkGrid_chain' a b f).imp
    (fun x y (hxy : y = x + f) => by rw [hxy]; linarith : ∀ x y, y = x + f → x < y)
  exact List.chain'_iff_pairwise.mp h

theorem mkGrid_sorted (a b f : ℚ) (hf : 0 < f) :
    (mkGrid a b f).Sorted (· ≤ ·) :=
  (mkGrid_pairwise_lt a b f hf).imp le_of_lt

theorem mkGrid_nodup (a b f : ℚ) (hf : 0 < f) : (mkGrid a b f).Nodup :=
  (mkGrid_pairwise_lt a b f hf).imp ne_of_lt

theorem take_eq_filter_lt {α : Type} {s : List (Time × α)}
    (hp : s.Pairwise (fun x y => x.1 < y.1)) :
    ∀ {i : Nat} {p : Time × α}, s[i]? = some p →
      s.take i = s.filter (fun x => x.1 < p.1) := by
  induction s with
  | nil => intro i p h; cases h
  | cons x xs ih =>
    intro i p h
    cases i with
    | zero =>
      rw [List.getElem?_cons_zero] at h
      cases h
      rw [List.take_zero]
      symm
      rw [List.filter_eq_nil_iff]
      intro a ha
      rcases List.mem_cons.mp ha with rfl | ha'
      · simp
      · have hlt : x.1 < a.1 := (List.pairwise_cons.mp hp).1 a ha'
        simp only [decide_eq_true_eq]
        exact not_lt.mpr (le_of_lt hlt)
    | succ j =>
      rw [List.getElem?_cons_succ] at h
      have hpm : p ∈ xs := List.getElem?_mem h
      have hxp : x.1 < p.1 := (List.pairwise_cons.mp hp).1 p hpm
      rw [List.take_succ_cons, List.filter_cons, if_pos (by simpa using hxp)]
      rw [ih (List.pairwise_cons.mp hp).2 h]

theorem drop_eq_filter_gt {α : Type} {s : List (Time × α)}
    (hp : s.Pairwise (fun x y => x.1 < y.1)) :
    ∀ {i : Nat} {p : Time × α}, s[i]? = some p →
      s.drop (i + 1) = s.filter (fun x => p.1 < x.1) := by
  induction s with
  | nil => intro i p h; cases h
  | cons x xs ih =>
    intro i p h
    cases i with
    | zero =>
      rw [List.getElem?_cons_zero] at h
      cases h
      rw [List.drop_one, List.tail_cons, List.filter_cons,
        if_neg (by simp)]
      symm
      rw [List.filter_eq_self]
      intro a ha
      have hlt : x.1 < a.1 := (List.pairwise_cons.mp hp).1 a ha
      simpa using hlt
    | succ j =>
      rw [List.getElem?_cons_succ] at h
      have hpm : p ∈ xs := List.getElem?_mem h
      have hxp : x.1 < p.1 := (List.pairwise_cons.mp hp).1 p hpm
      rw [List.drop_succ_cons, List.filter_cons,
        if_neg (by simp only [decide_eq_true_eq]; exact not_lt.mpr (le_of_lt hxp))]
      rw [ih (List.pairwise_cons.mp hp).2 h]

theorem prevValid_eq_specPrev {s : List (Time × Option ℚ)}
    (hp : s.Pairwise (fun x y => x.1 < y.1)) {i : Nat} {p : Time × Option ℚ}
    (h : s[i]? = some p) :
    prevValid s i = specPrev s p.1 := by
  rw [prevValid, specPrev, take_eq_filter_lt hp h]

theorem nextValid_eq_specNext {s : List (Time × Option ℚ)}
    (hp : s.Pairwise (fun x y => x.1 < y.1)) {i : Nat} {p : Time × Option ℚ}
    (h : s[i]? = some p) :
    nextValid s i = specNext s p.1 := by
  rw [nextValid, specNext, drop_eq_filter_gt hp h]

theorem interpPoint_eq_spec {s : List (Time × Option ℚ)}
    (hp : s.Pairwise (fun x y => x.1 < y.1)) {i : Nat} {p : Time × Option ℚ}
    (h : s[i]? = some p) (cur : Option ℚ) :
    interpPoint s i p.1 cur = timeInterpSpec s p.1 cur := by
  cases cur with
  | some v => rfl
  | none =>
    simp only [interpPoint, timeInterpSpec]
    rw [prevValid_eq_specPrev hp h, nextValid_eq_specNext hp h]

theorem find?_map_keypres {α β : Type} (l : List (Time × α))
    (g : Time × α → Time × β) (hg : ∀ p, (g p).1 = p.1) (t : Time) :
    (l.map g).find? (fun p => p.1 = t) =
      (l.find? (fun p => p.1 = t)).map g := by
  induction l with
  | nil => rfl
  | cons x xs ih =>
    rw [List.map_cons, List.find?_cons, List.find?_cons, hg x]
    cases hd : decide (x.1 = t) with
    | true => rfl
    | false => rw [ih]

theorem insertionSort_of_sorted (f : Frame) (hs : f.index.Sorted (· ≤ ·)) :
    f.rows.insertionSort rowLE = f.rows := by
  apply List.Sorted.insertionSort_eq
  rw [Frame.index] at hs
  exact List.Pairwise.of_map (fun p => p.1) (fun a b h => h) hs

theorem ensure_schema_index_of_sorted (f : Frame)
    (hs : f.index.Sorted (· ≤ ·)) :
    (ensure_schema f).index = f.index := by
  simp only [ensure_schema, ensure_utc_index, Frame.index]
  rw [insertionSort_of_sorted f hs, List.map_map]
  rfl

theorem ensure_schema_lookupRow (X : Frame) (hs : X.index.Sorted (· ≤ ·))
    (t : Time) :
    (ensure_schema X).lookupRow t =
      (X.lookupRow t).map (fun r c => if c ∈ X.cols then r c else none) := by
  simp only [ensure_schema, ensure_utc_index, Frame.lookupRow]
  rw [insertionSort_of_sorted X hs]
  rw [find?_map_keypres X.rows
    (fun p => (p.1, fun c => if c ∈ X.cols then p.2 c else none))
    (fun p => rfl) t]
  cases X.rows.find? (fun q => q.1 = t) <;> rfl

theorem ensure_schema_cellAt (X : Frame) (hs : X.index.Sorted (· ≤ ·))
    (t : Time) (c : String) (hc : c ∈ REQUIRED_COLUMNS) :
    (ensure_schema X).cellAt t c = X.cellAt t c := by
  rw [Frame.cellAt, Frame.cellAt, ensure_schema_lookupRow X hs t]
  cases X.lookupRow t with
  | none => rfl
  | some r =>
    simp only [Option.map_some']
    rw [if_pos (show c ∈ (ensure_schema X).cols from hc)]

theorem projectCols_cellAt (f : Frame) (cs : List String) (t : Time)
    (c : String) (h1 : c ∈ cs) (h2 : c ∈ f.cols) :
    (projectCols f cs).cellAt t c = f.cellAt t c := by
  rw [Frame.cellAt, Frame.cellAt]
  have hl : (projectCols f cs).lookupRow t = f.lookupRow t := rfl
  rw [hl]
  cases f.lookupRow t with
  | none => rfl
  | some r =>
    dsimp only [projectCols]
    rw [if_pos h1, if_pos h2]

theorem merge_cols (frames : List (String × Frame)) :
    (merge frames).cols = REQUIRED_COLUMNS ++ ["source"] := by
  by_cases hf : frames.isEmpty
  · rw [merge, if_pos hf]; rfl
  · rw [merge, if_neg hf]

theorem align_frames_sorted (frames : List Frame) :
    (align_frames frames).Sorted (· ≤ ·) := by
  have h := List.sorted_insertionSort (fun a b => a ≤ b)
    ((frames.filter (fun f => ¬ f.isEmpty)).flatMap Frame.index)
  exact List.Pairwise.sublist (List.dedup_sublist _) h

theorem merge_index_sorted (frames : List (String × Frame)) :
    (merge frames).index.Sorted (· ≤ ·) := by
  by_cases hf : frames.isEmpty
  · rw [merge, if_pos hf]
    simp [emptyMerged, Frame.index]
  · rw [merge_index frames hf]
    exact align_frames_sorted _

theorem lookupRow_isSome {f : Frame} {t : Time} (ht : t ∈ f.index) :
    ∃ r, f.lookupRow t = some r := by
  rw [Frame.index] at ht
  obtain ⟨p, hp, hpt⟩ := List.mem_map.mp ht
  rw [Frame.lookupRow]
  cases hf : f.rows.find? (fun q => q.1 = t) with
  | some q => exact ⟨q.2, rfl⟩
  | none =>
    exfalso
    have := List.find?_eq_none.mp hf p hp
    simp [hpt] at this

theorem lookupRow_enumT (cs : List String) {grid : List Time}
    (hnd : grid.Nodup) (fn : Nat → Time → (String → Cell)) :
    ∀ (k : Nat) {i : Nat} {t : Time}, grid[i]? = some t →
    (Frame.mk cs ((enumT k grid).map (fun p => (p.2, fn p.1 p.2)))).lookupRow t =
      some (fn (k + i) t) := by
  induction grid with
  | nil => intro k i t h; cases h
  | cons u rest ih =>
    intro k i t h
    cases i with
    | zero =>
      rw [List.getElem?_cons_zero] at h
      cases h
      rw [Frame.lookupRow, enumT, List.map_cons, List.find?_cons]
      simp
    | succ j =>
      rw [List.getElem?_cons_succ] at h
      have htr : t ∈ rest := List.getElem?_mem h
      have hut : ¬ u = t := by
        intro he
        exact (List.nodup_cons.mp hnd).1 (he ▸ htr)
      rw [Frame.lookupRow, enumT, List.map_cons, List.find?_cons]
      rw [decide_eq_false hut]
      have hrec := ih (List.nodup_cons.mp hnd).2 (k + 1) h
      rw [Frame.lookupRow] at hrec
      rw [hrec]
      have : k + 1 + j = k + (j + 1) := by omega
      rw [this]

theorem addSourcePad_index (merged resampled : Frame) :
    (addSourcePad merged resampled).index = resampled.index := by
  rw [addSourcePad, Frame.index, Frame.index, List.map_map]
  rfl

theorem find?_row_of_mem {f : Frame} {t : Time} (ht : t ∈ f.index) :
    ∃ q, f.rows.find? (fun p => p.1 = t) = some q ∧ q.1 = t := by
  rw [Frame.index] at ht
  obtain ⟨p, hp, hpt⟩ := List.mem_map.mp ht
  cases hf : f.rows.find? (fun q => q.1 = t) with
  | some q =>
    have := List.find?_some hf
    exact ⟨q, rfl, by simpa using this⟩
  | none =>
    exfalso
    have := List.find?_eq_none.mp hf p hp
    simp [hpt] at this

theorem addSourcePad_cellAt_source (merged resampled : Frame) (t : Time)
    (ht : t ∈ resampled.index) (hsm : "source" ∈ merged.cols) :
    (addSourcePad merged resampled).cellAt t "source" = padSpec merged t := by
  obtain ⟨q, hq, hq1⟩ := find?_row_of_mem ht
  rw [Frame.cellAt, Frame.lookupRow]
  have hfind : (addSourcePad merged resampled).rows.find? (fun p => p.1 = t) =
      some (q.1, fun c =>
        if c = "source" then
          match padLookup merged.rows q.1 with
          | some r => if "source" ∈ merged.cols then r.2 "source" else none
          | none => none
        else q.2 c) := by
    show (resampled.rows.map _).find? _ = _
    rw [find?_map_keypres resampled.rows
      (fun p => (p.1, fun c =>
        if c = "source" then
          match padLookup merged.rows p.1 with
          | some r => if "source" ∈ merged.cols then r.2 "source" else none
          | none => none
        else p.2 c))
      (fun p => rfl) t, hq]
    rfl
  rw [hfind]
  simp only [Option.map_some']
  rw [if_pos (show "source" ∈ (addSourcePad merged resampled).cols by
    exact List.mem_append_right _ (by simp))]
  rw [if_pos trivial, hq1, padSpec, padLookup_eq]
  cases (merged.rows.filter (fun r => r.1 ≤ t)).getLast? with
  | none => rfl
  | some r2 =>
    dsimp only
    rw [if_pos hsm]

theorem addSourcePad_cellAt_num (merged resampled : Frame) (t : Time)
    (c : String) (hc : c ∈ resampled.cols) (hcs : ¬ c = "source") :
    (addSourcePad merged resampled).cellAt t c = resampled.cellAt t c := by
  rw [Frame.cellAt, Frame.cellAt, Frame.lookupRow, Frame.lookupRow]
  have hmap : (addSourcePad merged resampled).rows.find? (fun p => p.1 = t) =
      (resampled.rows.find? (fun p => p.1 = t)).map
        (fun p => (p.1, fun c =>
          if c = "source" then
            match padLookup merged.rows p.1 with
            | some r => if "source" ∈ merged.cols then r.2 "source" else none
            | none => none
          else p.2 c)) := by
    show (resampled.rows.map _).find? _ = _
    exact find?_map_keypres resampled.rows
      (fun p => (p.1, fun c =>
        if c = "source" then
          match padLookup merged.rows p.1 with
          | some r => if "source" ∈ merged.cols then r.2 "source" else none
          | none => none
        else p.2 c))
      (fun p => rfl) t
  rw [hmap]
  cases resampled.rows.find? (fun p => p.1 = t) with
  | none => rfl
  | some q =>
    simp only [Option.map_some']
    rw [if_pos (show c ∈ (addSourcePad merged resampled).cols from
      List.mem_append_left _ hc)]
    rw [if_pos hc, if_neg hcs]

theorem resampleCore_index (w : Frame) (freq : ℚ) :
    (resampleCore w freq).index =
      mkGrid (w.index.headD 0) (w.index.getLastD 0) freq := by
  rw [resampleCore, Frame.index, List.map_map]
  exact enumT_map_snd 0 _

theorem resampleCore_cellAt (w : Frame) (freq : ℚ)
    (hnd : (mkGrid (w.index.headD 0) (w.index.getLastD 0) freq).Nodup)
    {i : Nat} {t : Time}
    (hi : (mkGrid (w.index.headD 0) (w.index.getLastD 0) freq)[i]? = some t)
    (c : String) (hc : c ∈ REQUIRED_COLUMNS) :
    (resampleCore w freq).cellAt t c =
      (interpPoint
        (gridSeries w (mkGrid (w.index.headD 0) (w.index.getLastD 0) freq) c)
        i t (cellNum (w.cellAt t c))).map J.num := by
  have h0 := lookupRow_enumT REQUIRED_COLUMNS hnd
    (fun j u c2 =>
      if c2 ∈ REQUIRED_COLUMNS then
        (interpPoint
          (gridSeries w (mkGrid (w.index.headD 0) (w.index.getLastD 0) freq) c2)
          j u (cellNum (w.cellAt u c2))).map J.num
      else none)
    0 hi
  rw [Nat.zero_add] at h0
  have hlook : (resampleCore w freq).lookupRow t =
      some (fun c2 =>
        if c2 ∈ REQUIRED_COLUMNS then
          (interpPoint
            (gridSeries w (mkGrid (w.index.headD 0) (w.index.getLastD 0) freq) c2)
            i t (cellNum (w.cellAt t c2))).map J.num
        else none) := h0
  rw [Frame.cellAt, hlook]
  simp only [Option.map_some']
  rw [if_pos (show c ∈ (resampleCore w freq).cols from hc)]
  rw [if_pos hc]

/-- The merged frame `get_nowcast` builds before resampling. -/
def nowcastMerged (sources : List NEntry) : Frame :=
  merge (sources.foldl nowcastStep ([], 0)).1

/-- The 15-minute label grid of the nowcast resample. -/
def nowcastGrid (sources : List NEntry) : List Time :=
  mkGrid ((nowcastMerged sources).index.headD 0)
    ((nowcastMerged sources).index.getLastD 0) 900

/-- One canonical column of the merged frame, sampled on the grid. -/
def nowcastSeries (sources : List NEntry) (c : String) :
    List (Time × Option ℚ) :=
  (nowcastGrid sources).map
    (fun u => (u, cellNum ((nowcastMerged sources).cellAt u c)))

theorem nowcastMerged_index_sorted (sources : List NEntry) :
    (nowcastMerged sources).index.Sorted (· ≤ ·) :=
  merge_index_sorted _

/-- C9: on a non-empty merge input, `get_nowcast` returns a frame whose
index is the 15-minute bin grid spanning the merged window — non-empty,
with constant 900-second spacing and no gaps; whose `source` column is
forward-filled from the last merged row at or before each grid point,
never interpolated; and whose canonical numeric columns carry the
time-aware interpolation of the merged values sampled onto that grid. -/
theorem get_nowcast_resampling (sources : List NEntry)
    (hne : ¬ (nowcastMerged sources).isEmpty = true) :
    (routerGetNowcast sources).1.index = nowcastGrid sources ∧
    (routerGetNowcast sources).1.index ≠ [] ∧
    (routerGetNowcast sources).1.index.Chain' (fun a b => b = a + 900) ∧
    (∀ t ∈ (routerGetNowcast sources).1.index,
      (routerGetNowcast sources).1.cellAt t "source" =
        padSpec (nowcastMerged sources) t) ∧
    (∀ t ∈ (routerGetNowcast sources).1.index, ∀ c ∈ REQUIRED_COLUMNS,
      (routerGetNowcast sources).1.cellAt t c =
        (timeInterpSpec (nowcastSeries sources c) t
          (cellNum ((nowcastMerged sources).cellAt t c))).map J.num) := by
  have hout : (routerGetNowcast sources).1 =
      addSourcePad (nowcastMerged sources)
        (resample_frame_interpolate
          (projectCols (nowcastMerged sources) REQUIRED_COLUMNS) 900) := by
    simp only [routerGetNowcast, nowcastMerged]
    rw [if_neg (by simpa [nowcastMerged] using hne)]
  have hPsorted : (projectCols (nowcastMerged sources) REQUIRED_COLUMNS).index.Sorted
      (· ≤ ·) := nowcastMerged_index_sorted sources
  have hR : resample_frame_interpolate
        (projectCols (nowcastMerged sources) REQUIRED_COLUMNS) 900 =
      ensure_schema (resampleCore
        (ensure_schema (projectCols (nowcastMerged sources) REQUIRED_COLUMNS))
        900) := by
    rw [resample_frame_interpolate,
      if_neg (by simpa [Frame.isEmpty, projectCols] using hne)]
  have hWidx : (ensure_schema
      (projectCols (nowcastMerged sources) REQUIRED_COLUMNS)).index =
      (nowcastMerged sources).index :=
    ensure_schema_index_of_sorted _ hPsorted
  have hgrid : mkGrid
      ((ensure_schema (projectCols (nowcastMerged sources)
        REQUIRED_COLUMNS)).index.headD 0)
      ((ensure_schema (projectCols (nowcastMerged sources)
        REQUIRED_COLUMNS)).index.getLastD 0) 900 = nowcastGrid sources := by
    rw [hWidx]
    rfl
  have hcoreidx : (resampleCore
      (ensure_schema (projectCols (nowcastMerged sources) REQUIRED_COLUMNS))
      900).index = nowcastGrid sources := by
    rw [resampleCore_index, hgrid]
  have hgridsorted : (nowcastGrid sources).Sorted (· ≤ ·) :=
    mkGrid_sorted _ _ _ (by norm_num)
  have hgridnodup : (nowcastGrid sources).Nodup :=
    mkGrid_nodup _ _ _ (by norm_num)
  have hRidx : (resample_frame_interpolate
      (projectCols (nowcastMerged sources) REQUIRED_COLUMNS) 900).index =
      nowcastGrid sources := by
    rw [hR, ensure_schema_index_of_sorted _ (by rw [hcoreidx]; exact hgridsorted),
      hcoreidx]
  have houtidx : (routerGetNowcast sources).1.index = nowcastGrid sources := by
    rw [hout, addSourcePad_index, hRidx]
  refine ⟨houtidx, ?_, ?_, ?_, ?_⟩
  · rw [houtidx]
    exact mkGrid_ne_nil _ _ _
  · rw [houtidx]
    exact mkGrid_chain' _ _ _
  · intro t ht
    rw [houtidx] at ht
    rw [hout]
    exact addSourcePad_cellAt_source _ _ t (by rw [hRidx]; exact ht)
      (by rw [nowcastMerged, merge_cols]; simp)
  · intro t ht c hc
    rw [houtidx] at ht
    have hcellW : ∀ u, (ensure_schema
        (projectCols (nowcastMerged sources) REQUIRED_COLUMNS)).cellAt u c =
        (nowcastMerged sources).cellAt u c := by
      intro u
      rw [ensure_schema_cellAt _ hPsorted u c hc]
      exact projectCols_cellAt _ _ u c hc
        (by rw [nowcastMerged, merge_cols]; exact List.mem_append_left _ hc)
    obtain ⟨i, hi⟩ := List.mem_iff_getElem?.mp ht
    have hsc : c ≠ "source" := by
      intro h
      rw [h] at hc
      revert hc
      decide
    rw [hout, addSourcePad_cellAt_num _ _ t c (by rw [hR]; exact hc) hsc, hR]
    rw [ensure_schema_cellAt _ (by rw [hcoreidx]; exact hgridsorted) t c hc]
    rw [resampleCore_cellAt _ 900 (by rw [hgrid]; exact hgridnodup)
      (by rw [hgrid]; exact hi) c hc]
    have hseries : gridSeries
        (ensure_schema (projectCols (nowcastMerged sources) REQUIRED_COLUMNS))
        (mkGrid ((ensure_schema (projectCols (nowcastMerged sources)
          REQUIRED_COLUMNS)).index.headD 0)
         ((ensure_schema (projectCols (nowcastMerged sources)
          REQUIRED_COLUMNS)).index.getLastD 0) 900) c =
        nowcastSeries sources c := by
      rw [gridSeries, hgrid, nowcastSeries]
      exact List.map_congr_left (fun u _ => by rw [hcellW u])
    have hp : (nowcastSeries sources c).Pairwise (fun x y => x.1 < y.1) := by
      rw [nowcastSeries]
      exact List.Pairwise.map _ (fun a b hab => hab)
        (mkGrid_pairwise_lt _ _ _ (by norm_num))
    have hsi : (nowcastSeries sources c)[i]? =
        some (t, cellNum ((nowcastMerged sources).cellAt t c)) := by
      rw [nowcastSeries, List.getElem?_map, hi]
      rfl
    rw [hseries, hcellW t]
    exact congrArg (Option.map J.num) (interpPoint_eq_spec hp hsi _)
/-- A one-provider nowcast scenario: two quarter-hour samples at 0 s and
900 s, every canonical column carrying `1.0` then `3.0`. -/
def c9frame : Frame :=
  { cols := REQUIRED_COLUMNS,
    rows := [((0 : ℚ), fun _ => some (J.num 1)),
             ((900 : ℚ), fun _ => some (J.num 3))] }

/-- The nowcast source list of the witness scenario. -/
def c9src : List NEntry := [⟨"P1", true, .ok c9frame⟩]

/-- Witness for C9: the one-provider scenario merges to a non-empty frame,
so `get_nowcast` resamples it onto the 15-minute grid as characterized. -/
theorem get_nowcast_resampling_witness :
    ¬ (nowcastMerged c9src).isEmpty = true ∧
    ((routerGetNowcast c9src).1.index = nowcastGrid c9src ∧
     (routerGetNowcast c9src).1.index ≠ [] ∧
     (routerGetNowcast c9src).1.index.Chain' (fun a b => b = a + 900) ∧
     (∀ t ∈ (routerGetNowcast c9src).1.index,
       (routerGetNowcast c9src).1.cellAt t "source" =
         padSpec (nowcastMerged c9src) t) ∧
     (∀ t ∈ (routerGetNowcast c9src).1.index, ∀ c ∈ REQUIRED_COLUMNS,
       (routerGetNowcast c9src).1.cellAt t c =
         (timeInterpSpec (nowcastSeries c9src c) t
           (cellNum ((nowcastMerged c9src).cellAt t c))).map J.num)) :=
  ⟨by decide, get_nowcast_resampling c9src (by decide)⟩
/-! ## OpenWeather auth-failure handling (C8)

`OpenWeatherProvider` (`weather/providers/openweather.py`).  A session's
network traffic is modelled as a list of responses consumed one per
`session.get` call; instance state is the triple of mutable flags set in
`__init__`. -/

/-- One observed outcome of `session.get` + `raise_for_status` + `.json()`:
a 200 response with a JSON body, an HTTP error carrying the status code
recovered by `_status_code` (`none` when unrecoverable), or any other
request failure. -/
inductive HttpResult where
  | ok (body : J)
  | httpError (status : Option Int)
  | netError
deriving DecidableEq, Repr

/-- The mutable flags of an `OpenWeatherProvider` instance:
`_force_forecast_only`, `_auth_failure_logged`, `_permanently_disabled`. -/
structure OWState where
  forceForecastOnly : Bool
  authFailureLogged : Bool
  permanentlyDisabled : Bool
deriving DecidableEq, Repr

/-- The constructor arguments of `OpenWeatherProvider` that this model
uses (`api_mode` is stored already lower-cased, as `__init__` does). -/
structure OWCfg where
  retries : Nat
  skipOnAuthFailure : Bool
  apiMode : String
  ttl : ℚ
  hasKey : Bool

/-- `__init__`: `_force_forecast_only = api_mode == "forecast"`, both
auth-failure flags clear. -/
def owInitState (cfg : OWCfg) : OWState :=
  { forceForecastOnly := cfg.apiMode == "forecast",
    authFailureLogged := false,
    permanentlyDisabled := false }

/-- `_request_with_retries`: each attempt consumes one network response
(an exhausted list stands for repeated connection failures, which the
`except Exception` arm catches and retries).  An HTTP 401/403 raises
`OpenWeatherAuthError` at once when `skip_on_auth_failure` is set;
every other failure — other HTTP errors, network errors, a non-dict JSON
body (`ValueError`) — becomes `last_exc` and is retried; exhausted
attempts raise `RuntimeError` (with or without a recorded `last_exc`). -/
def requestWithRetries (skip : Bool) : Nat → List HttpResult →
    Except PyErr J × List HttpResult
  | 0, net => (.error .runtimeError, net)
  | n + 1, [] => requestWithRetries skip n []
  | n + 1, .ok body :: rest =>
    if jIsObj body then (.ok body, rest)
    else requestWithRetries skip n rest
  | n + 1, .httpError status :: rest =>
    if skip ∧ (status = some 401 ∨ status = some 403) then
      (.error (.owAuthError status), rest)
    else requestWithRetries skip n rest
  | n + 1, .netError :: rest => requestWithRetries skip n rest

/-- `_request_onecall` on its single endpoint: same retry loop, but a
401/403 breaks out and raises `OpenWeatherAuthError` unconditionally —
`skip_on_auth_failure` is not consulted there. -/
def requestOnecall : Nat → List HttpResult → Except PyErr J × List HttpResult
  | 0, net => (.error .runtimeError, net)
  | n + 1, [] => requestOnecall n []
  | n + 1, .ok body :: rest =>
    if jIsObj body then (.ok body, rest)
    else requestOnecall n rest
  | n + 1, .httpError status :: rest =>
    if status = some 401 ∨ status = some 403 then
      (.error (.owAuthError status), rest)
    else requestOnecall n rest
  | n + 1, .netError :: rest => requestOnecall n rest

/-- The stub payload `_request_forecast` returns once disabled:
`{"current": None, "forecast": {"list": []}}`. -/
def disabledPayload : J :=
  J.objCons "current" J.null
    (J.objCons "forecast" (J.objCons "list" J.arrNil J.objNil) J.objNil)

/-- The observable effect of one provider-internal call: its returned
value or exception, the unconsumed tail of the network responses, the
updated instance flags, and how many times the auth-failure `logger.error`
fired. -/
structure OWCall (A : Type) where
  result : Except PyErr A
  net : List HttpResult
  state : OWState
  logs : Nat

/-- The `except OpenWeatherAuthError` arm of `_request_forecast`: when
`skip_on_auth_failure` is set, log the rejection once per instance, set
`_auth_failure_logged` and `_permanently_disabled`, and return the stub
payload; otherwise re-raise. -/
def owAuthCatch (skip : Bool) (status : Option Int) (s : OWState)
    (net : List HttpResult) : OWCall J :=
  if skip then
    { result := .ok disabledPayload, net := net,
      state := { forceForecastOnly := s.forceForecastOnly,
                 authFailureLogged := true, permanentlyDisabled := true },
      logs := if s.authFailureLogged then 0 else 1 }
  else { result := .error (.owAuthError status), net := net, state := s, logs := 0 }

/-- `_request_forecast`: fetch the 3-hour forecast then the current
conditions; an `OpenWeatherAuthError` from either request is handled by
`owAuthCatch`; other exceptions propagate; on success the payload is
`{"current": current, "forecast": forecast}`. -/
def requestForecast (cfg : OWCfg) (s : OWState) (net : List HttpResult) :
    OWCall J :=
  match requestWithRetries cfg.skipOnAuthFailure cfg.retries net with
  | (.error (.owAuthError st), net1) =>
    owAuthCatch cfg.skipOnAuthFailure st s net1
  | (.error e, net1) => { result := .error e, net := net1, state := s, logs := 0 }
  | (.ok forecast, net1) =>
    match requestWithRetries cfg.skipOnAuthFailure cfg.retries net1 with
    | (.error (.owAuthError st), net2) =>
      owAuthCatch cfg.skipOnAuthFailure st s net2
    | (.error e, net2) => { result := .error e, net := net2, state := s, logs := 0 }
    | (.ok current, net2) =>
      { result := .ok (J.objCons "current" current
          (J.objCons "forecast" forecast J.objNil)),
        net := net2, state := s, logs := 0 }

/-- The forecast branch of `_request`, tagging the payload with mode
`"forecast"`. -/
def owForecastCase (cfg : OWCfg) (s : OWState) (net : List HttpResult) :
    OWCall (String × Option J) :=
  match requestForecast cfg s net with
  | ⟨.ok p, net1, s1, logs⟩ =>
    { result := .ok ("forecast", some p), net := net1, state := s1, logs := logs }
  | ⟨.error e, net1, s1, logs⟩ =>
    { result := .error e, net := net1, state := s1, logs := logs }

/-- `OpenWeatherProvider._request`: a missing API key raises
`RuntimeError`; a permanently disabled provider returns `("none", None)`;
`_force_forecast_only` or `api_mode == "forecast"` takes the forecast
path; `api_mode == "onecall"` calls `_request_onecall` and lets every
failure — `OpenWeatherAuthError` included — propagate; auto mode tries One
Call first, and on any exception sets `_force_forecast_only` and falls
back to the forecast path (the fallback is logged at info/warning level,
not with the auth-failure error log). -/
def owRequest (cfg : OWCfg) (s : OWState) (net : List HttpResult) :
    OWCall (String × Option J) :=
  if ¬ cfg.hasKey then
    { result := .error .runtimeError, net := net, state := s, logs := 0 }
  else if s.permanentlyDisabled then
    { result := .ok ("none", none), net := net, state := s, logs := 0 }
  else if s.forceForecastOnly ∨ cfg.apiMode = "forecast" then
    owForecastCase cfg s net
  else if cfg.apiMode = "onecall" then
    match requestOnecall cfg.retries net with
    | (.ok j, net1) =>
      { result := .ok ("onecall", some j), net := net1, state := s, logs := 0 }
    | (.error e, net1) =>
      { result := .error e, net := net1, state := s, logs := 0 }
  else
    match requestOnecall cfg.retries net with
    | (.ok j, net1) =>
      { result := .ok ("onecall", some j), net := net1, state := s, logs := 0 }
    | (.error _, net1) =>
      owForecastCase cfg
        { forceForecastOnly := true,
          authFailureLogged := s.authFailureLogged,
          permanentlyDisabled := s.permanentlyDisabled } net1

/-- The `_fetch` closure of `get_hourly`: `_request`, then normalize; an
empty normalization result is returned as-is; a forecast-mode frame is
resampled from 3-hour to hourly cadence; finally the frame is clipped to
`[start_ts, end_ts]`.  Exceptions from `_request` and the normalizer
propagate. -/
def owFetch (cfg : OWCfg) (startT endT : ℚ) (s : OWState)
    (net : List HttpResult) : OWCall Frame :=
  match owRequest cfg s net with
  | ⟨.error e, net1, s1, logs⟩ =>
    { result := .error e, net := net1, state := s1, logs := logs }
  | ⟨.ok (mode, payload), net1, s1, logs⟩ =>
    match payload with
    | none => { result := .ok empty_frame, net := net1, state := s1, logs := logs }
    | some p =>
      if mode = "none" then
        { result := .ok empty_frame, net := net1, state := s1, logs := logs }
      else
        match normalize_openweather p
            (if mode = "forecast" then OWMode.forecast else OWMode.onecall) with
        | .error e => { result := .error e, net := net1, state := s1, logs := logs }
        | .ok frame =>
          if frame.isEmpty then
            { result := .ok frame, net := net1, state := s1, logs := logs }
          else
            { result := .ok (clipRows
                (if mode = "forecast" then resample_frame_interpolate frame 3600
                 else frame) startT endT),
              net := net1, state := s1, logs := logs }

/-- The observable effect of one `get_hourly` call, including the cache
store (which persists across exceptions). -/
structure OWHourly where
  result : Except PyErr Frame
  cache : CacheState
  net : List HttpResult
  state : OWState
  logs : Nat

/-- The single cache key `get_hourly` uses
(`json.dumps({"lat": ..., "lon": ...})` for a fixed location). -/
def owKey : CKey := ("openweather", "hourly", "latlon")

/-- `OpenWeatherProvider.get_hourly` at simulated time `now` for the
window `[startT, endT]`: a permanently disabled provider returns
`empty_frame` immediately — no cache access, no network request, no log.
Otherwise `_fetch` runs under `fetch_with_cache` (scope `"hourly"`, TTL
`ttl_for("hourly", fallback=1800)`, which resolves to the configured
`ttl`), and the result is schema-enforced and clipped to the window. -/
def owGetHourly (cfg : OWCfg) (cache : CacheState) (now startT endT : ℚ)
    (s : OWState) (net : List HttpResult) : OWHourly :=
  if s.permanentlyDisabled then
    { result := .ok empty_frame, cache := cache, net := net, state := s, logs := 0 }
  else if ttlTruthy (some cfg.ttl) then
    match cacheGet cache now owKey with
    | .error e =>
      { result := .error e, cache := cache, net := net, state := s, logs := 0 }
    | .ok (some cached, c1) =>
      { result := .ok (clipRows (ensure_schema cached) startT endT),
        cache := c1, net := net, state := s, logs := 0 }
    | .ok (none, c1) =>
      match owFetch cfg startT endT s net with
      | ⟨.error e, net1, s1, logs⟩ =>
        { result := .error e, cache := c1, net := net1, state := s1, logs := logs }
      | ⟨.ok data, net1, s1, logs⟩ =>
        if ¬ data.isEmpty then
          match cacheSet c1 now owKey data cfg.ttl with
          | .error e =>
            { result := .error e, cache := c1, net := net1, state := s1, logs := logs }
          | .ok c2 =>
            { result := .ok (clipRows (ensure_schema data) startT endT),
              cache := c2, net := net1, state := s1, logs := logs }
        else
          { result := .ok (clipRows (ensure_schema data) startT endT),
            cache := c1, net := net1, state := s1, logs := logs }
  else
    match owFetch cfg startT endT s net with
    | ⟨.error e, net1, s1, logs⟩ =>
      { result := .error e, cache := cache, net := net1, state := s1, logs := logs }
    | ⟨.ok data, net1, s1, logs⟩ =>
      { result := .ok (clipRows (ensure_schema data) startT endT),
        cache := cache, net := net1, state := s1, logs := logs }
/-- An OpenWeather provider configured with `api_mode="onecall"` and the
default `skip_on_auth_failure=True`. -/
def c8cfgOnecall : OWCfg :=
  { retries := 3, skipOnAuthFailure := true, apiMode := "onecall",
    ttl := 1800, hasKey := true }

/-- C8 counterexample: with `api_mode="onecall"` and
`skip_on_auth_failure=True`, the first HTTP 401 makes `get_hourly` raise
`OpenWeatherAuthError` instead of logging and disabling: the instance
flags are unchanged (in particular `_permanently_disabled` stays clear),
the auth-failure error log never fires, and the network response was
consumed — so a repeat call issues the request again rather than
returning an empty series without network traffic. -/
theorem openweather_onecall_auth_no_latch :
    (owGetHourly c8cfgOnecall emptyStore 0 0 7200 (owInitState c8cfgOnecall)
      [HttpResult.httpError (some 401)]).result =
        .error (.owAuthError (some 401)) ∧
    (owGetHourly c8cfgOnecall emptyStore 0 0 7200 (owInitState c8cfgOnecall)
      [HttpResult.httpError (some 401)]).state = owInitState c8cfgOnecall ∧
    (owGetHourly c8cfgOnecall emptyStore 0 0 7200 (owInitState c8cfgOnecall)
      [HttpResult.httpError (some 401)]).logs = 0 ∧
    (owGetHourly c8cfgOnecall emptyStore 0 0 7200 (owInitState c8cfgOnecall)
      [HttpResult.httpError (some 401)]).net = [] :=
  ⟨rfl, rfl, rfl, rfl⟩
/-- C8 (amended): on the forecast path (`_force_forecast_only` set, as
`api_mode="forecast"` does at construction and the auto-mode fallback does
later) with `skip_on_auth_failure=True`, the first HTTP 401 latches: the
call consumes that one response, logs the rejection exactly once (the
`_auth_failure_logged` guard), sets both `_auth_failure_logged` and
`_permanently_disabled`, and returns the empty schema-conformant frame;
and from any permanently-disabled state, every `get_hourly` call returns
the empty frame with the cache untouched, no network response consumed
and nothing logged. -/
theorem openweather_auth_latch (cfg : OWCfg) (now startT endT : ℚ)
    (s : OWState) (net : List HttpResult) (n : Nat)
    (hskip : cfg.skipOnAuthFailure = true)
    (hkey : cfg.hasKey = true)
    (hforce : s.forceForecastOnly = true)
    (hnd : s.permanentlyDisabled = false)
    (hnl : s.authFailureLogged = false)
    (hr : cfg.retries = n + 1)
    (httl : ttlTruthy (some cfg.ttl) = true) :
    owGetHourly cfg emptyStore now startT endT s
        (HttpResult.httpError (some 401) :: net) =
      { result := .ok empty_frame, cache := emptyStore, net := net,
        state := { forceForecastOnly := true, authFailureLogged := true,
                   permanentlyDisabled := true }, logs := 1 } ∧
    (∀ (cache : CacheState) (now2 a b : ℚ) (s2 : OWState)
        (net2 : List HttpResult), s2.permanentlyDisabled = true →
      owGetHourly cfg cache now2 a b s2 net2 =
        { result := .ok empty_frame, cache := cache, net := net2,
          state := s2, logs := 0 }) := by
  constructor
  · obtain ⟨force, logged, dis⟩ := s
    obtain ⟨r, sk, mode, ttl, hk⟩ := cfg
    dsimp only at hskip hkey hforce hnd hnl hr httl
    subst hskip hkey hforce hnd hnl hr
    rw [owGetHourly]
    rw [if_neg (by simp)]
    rw [if_pos httl]
    rfl
  · intro cache now2 a b s2 net2 h2
    obtain ⟨f2, l2, d2⟩ := s2
    dsimp only at h2
    subst h2
    rfl
/-- An OpenWeather provider configured with `api_mode="forecast"` and the
default `skip_on_auth_failure=True`. -/
def c8cfgForecast : OWCfg :=
  { retries := 3, skipOnAuthFailure := true, apiMode := "forecast",
    ttl := 1800, hasKey := true }

/-- Witness for the amended C8: the freshly constructed forecast-mode
provider satisfies every hypothesis, so its first 401 latches as stated
and all later calls from the disabled state are inert. -/
theorem openweather_auth_latch_witness :
    (c8cfgForecast.skipOnAuthFailure = true ∧
     c8cfgForecast.hasKey = true ∧
     (owInitState c8cfgForecast).forceForecastOnly = true ∧
     (owInitState c8cfgForecast).permanentlyDisabled = false ∧
     (owInitState c8cfgForecast).authFailureLogged = false ∧
     c8cfgForecast.retries = 2 + 1 ∧
     ttlTruthy (some c8cfgForecast.ttl) = true) ∧
    (owGetHourly c8cfgForecast emptyStore 0 0 7200 (owInitState c8cfgForecast)
        [HttpResult.httpError (some 401)] =
      { result := .ok empty_frame, cache := emptyStore, net := [],
        state := { forceForecastOnly := true, authFailureLogged := true,
                   permanentlyDisabled := true }, logs := 1 } ∧
     (∀ (cache : CacheState) (now2 a b : ℚ) (s2 : OWState)
         (net2 : List HttpResult), s2.permanentlyDisabled = true →
       owGetHourly c8cfgForecast cache now2 a b s2 net2 =
         { result := .ok empty_frame, cache := cache, net := net2,
           state := s2, logs := 0 })) :=
  ⟨⟨rfl, rfl, rfl, rfl, rfl, rfl, by decide⟩,
   openweather_auth_latch c8cfgForecast 0 0 7200 (owInitState c8cfgForecast)
     [] 2 rfl rfl rfl rfl rfl rfl (by decide)⟩
